import Mathlib

/-!
Verification of the frame-graph core of the `filament` repository.

Only `src/filament/src/fg/FrameGraph.h` (declarations and their comments) is
present in the sources; the implementation file of the frame graph is not.
Definitions below are therefore a shallow embedding modelled from the
specification text and from the comments in `FrameGraph.h`, as noted on each
definition.  Machine integers (`uint16_t` ids and versions) are modelled as
`Nat`: the frame graph is rebuilt each frame and no overflow behaviour is
relied upon by any claim.
-/

set_option autoImplicit false

namespace Filament

/-- List helper: apply `f` to the element at position `i`, leave the list
unchanged when `i` is out of range (mirrors in-place mutation of a vector
element in the C++ source). -/
def modifyNth {α : Type} (f : α → α) : Nat → List α → List α
  | _, [] => []
  | 0, a :: as => f a :: as
  | n + 1, a :: as => a :: modifyNth f n as

/-- List helper: map with the element index, starting the count at `k`
(mirrors an indexed loop over a vector in the C++ source). -/
def mapIdxGo {α : Type} (f : Nat → α → α) : Nat → List α → List α
  | _, [] => []
  | k, a :: as => f k a :: mapIdxGo f (k + 1) as

/-- Modelled from the spec (§3 "Resource entry"): the `fg::ResourceEntryBase`
defined in `fg/ResourceEntry.h` is not under `src/`.  An entry owns the
descriptor, the imported flag, the current version counter used for handle
validation, and the first-use/last-use lifetime computed by `compile`.
Descriptors are abstracted as `Nat` (the spec only requires structural
equality of descriptors). -/
structure ResourceEntry where
  name : String
  descriptor : Nat
  imported : Bool
  version : Nat
  firstUse : Option Nat
  lastUse : Option Nat
  deriving DecidableEq

instance : Inhabited ResourceEntry :=
  ⟨{ name := "", descriptor := 0, imported := false, version := 0,
     firstUse := none, lastUse := none }⟩

/-- Modelled from the spec (§3 "Resource node"): `fg::ResourceNode` is only
forward-declared in `FrameGraph.h`.  A node is a version stamp onto one
entry: it records the entry index, the version it was created at, the
read-refcount and the (optional) writer pass. -/
structure ResourceNode where
  resource : Nat
  version : Nat
  readerCount : Nat
  writer : Option Nat
  deriving DecidableEq

instance : Inhabited ResourceNode :=
  ⟨{ resource := 0, version := 0, readerCount := 0, writer := none }⟩

/-- Modelled from the spec (§3 "Pass node"): `fg::PassNode` is only
forward-declared in `FrameGraph.h`.  `reads` and `writes` are lists of
resource-node indices in declaration order; `exec` is an opaque token
standing for the stored execute callback. -/
structure PassNode where
  name : String
  reads : List Nat
  writes : List Nat
  hasSideEffect : Bool
  refCount : Nat
  exec : Nat
  deriving DecidableEq

instance : Inhabited PassNode :=
  ⟨{ name := "", reads := [], writes := [], hasSideEffect := false,
     refCount := 0, exec := 0 }⟩

/-- Modelled from the spec (§3 "Alias" and §4.6): `fg::Alias` is only
forward-declared in `FrameGraph.h`.  `fromNode`/`toNode` are the node
indices of the two handles given to `moveResource`; `disconnects` records,
at move time, the node indices of every node that pointed to `from`'s entry
when the move was declared — these are exactly the targets of "writers of
`from` prior to the alias", which compile disconnects. -/
structure Alias where
  fromNode : Nat
  toNode : Nat
  disconnects : List Nat
  deriving DecidableEq

instance : Inhabited Alias := ⟨{ fromNode := 0, toNode := 0, disconnects := [] }⟩

/-- Observable events of one frame: callback invocations (`setupRun`,
`executeRun`) and the backend create/destroy calls made by the execute
phase for concrete resources (spec §4.5, §6). -/
inductive FgEvent where
  | setupRun (pass : Nat)
  | executeRun (pass : Nat)
  | createResource (entry : Nat)
  | destroyResource (entry : Nat)
  deriving DecidableEq

/-- The frame-graph state, mirroring the private fields of `FrameGraph`
(`FrameGraph.h:305-311`): pass nodes, resource nodes, resource entries and
recorded aliases.  `presentRefs` records the node index of every `present`
call (spec §4.4 step 2); `events` is the observable trace. -/
structure FrameGraph where
  passNodes : List PassNode
  resourceNodes : List ResourceNode
  entries : List ResourceEntry
  aliases : List Alias
  presentRefs : List Nat
  events : List FgEvent
  deriving DecidableEq

instance : Inhabited FrameGraph :=
  ⟨{ passNodes := [], resourceNodes := [], entries := [], aliases := [],
     presentRefs := [], events := [] }⟩

/-- The empty frame graph (state right after the `FrameGraph` constructor). -/
def FrameGraph.empty : FrameGraph := default

/-- A resource handle (`FrameGraphResource`): an opaque id carrying a
resource-node index and the version the node was created at (spec §3
"Handle").  `FrameGraphResource.h` is not under `src/`. -/
structure FrameGraphResource where
  index : Nat
  version : Nat
  deriving DecidableEq

instance : Inhabited FrameGraphResource := ⟨{ index := 0, version := 0 }⟩

namespace FrameGraph

/-- Modelled from the spec: the body of `FrameGraph::isValid`
(declared `FrameGraph.h:181`) is not under `src/`.  Per spec §3 a handle is
valid iff its version matches the current version of the resource it
denotes; per the comment at `FrameGraph.h:179-180` a handle becomes invalid
after it is used to declare a resource write. -/
def isValid (fg : FrameGraph) (r : FrameGraphResource) : Bool :=
  match fg.resourceNodes[r.index]? with
  | none => false
  | some n =>
    match fg.entries[n.resource]? with
    | none => false
    | some e => r.version == n.version && n.version == e.version

/-- Modelled from the spec (§4.1 `create`): the bodies of
`FrameGraph::create` / `createResourceNode` (declared `FrameGraph.h:276-283`)
are not under `src/`.  Allocates a fresh entry and a fresh node at version 0
and returns the handle. -/
def createResource (fg : FrameGraph) (name : String) (desc : Nat) :
    FrameGraph × FrameGraphResource :=
  let eIdx := fg.entries.length
  let nIdx := fg.resourceNodes.length
  let e : ResourceEntry :=
    { name, descriptor := desc, imported := false, version := 0,
      firstUse := none, lastUse := none }
  let n : ResourceNode :=
    { resource := eIdx, version := 0, readerCount := 0, writer := none }
  ({ fg with entries := fg.entries ++ [e],
             resourceNodes := fg.resourceNodes ++ [n] },
   { index := nIdx, version := 0 })

/-- Modelled from the spec (§4.7 `import`): the body of `FrameGraph::import`
(`FrameGraph.h:198-203`) allocates an entry flagged imported and a node for
it; the concrete resource is externally owned. -/
def importResource (fg : FrameGraph) (name : String) (desc : Nat) :
    FrameGraph × FrameGraphResource :=
  let eIdx := fg.entries.length
  let nIdx := fg.resourceNodes.length
  let e : ResourceEntry :=
    { name, descriptor := desc, imported := true, version := 0,
      firstUse := none, lastUse := none }
  let n : ResourceNode :=
    { resource := eIdx, version := 0, readerCount := 0, writer := none }
  ({ fg with entries := fg.entries ++ [e],
             resourceNodes := fg.resourceNodes ++ [n] },
   { index := nIdx, version := 0 })

/-- Modelled from the spec (§4.1 `read`): the body of
`FrameGraph::Builder::read` (declared `FrameGraph.h:140`) is not under
`src/`.  Records the node in pass `p`'s reads and increments the node's
read-refcount; fails (`none`) on an out-of-version handle. -/
def readImpl (fg : FrameGraph) (p : Nat) (r : FrameGraphResource) :
    Option (FrameGraph × FrameGraphResource) :=
  if fg.isValid r then
    some ({ fg with
      resourceNodes := modifyNth
        (fun n => { n with readerCount := n.readerCount + 1 }) r.index
        fg.resourceNodes,
      passNodes := modifyNth
        (fun pn => { pn with reads := pn.reads ++ [r.index] }) p
        fg.passNodes }, r)
  else none

/-- Modelled from the spec: the body of `FrameGraph::Builder::write`
(declared `FrameGraph.h:141`) is not under `src/`.  Per spec §3 "Writing a
resource bumps the node version and invalidates the prior handle; the write
returns a new handle carrying the new version", and per the comments at
`FrameGraph.h:179-180` and `FrameGraph.h:205-210` this invalidation is
unconditional: the entry version is bumped, a fresh node at the new version
is appended (its writer is the writing pass), and the write is recorded in
the pass.  Writing an imported resource marks the pass side-effecting
(`FrameGraph.h:108`).  Fails (`none`) on an out-of-version handle. -/
def writeImpl (fg : FrameGraph) (p : Nat) (r : FrameGraphResource) :
    Option (FrameGraph × FrameGraphResource) :=
  if fg.isValid r then
    let n := fg.resourceNodes.getD r.index default
    let e := fg.entries.getD n.resource default
    let newVer := e.version + 1
    let nIdx := fg.resourceNodes.length
    let newNode : ResourceNode :=
      { resource := n.resource, version := newVer, readerCount := 0,
        writer := some p }
    some ({ fg with
      entries := modifyNth (fun en => { en with version := newVer })
        n.resource fg.entries,
      resourceNodes := fg.resourceNodes ++ [newNode],
      passNodes := modifyNth
        (fun pn => { pn with writes := pn.writes ++ [nIdx],
                             hasSideEffect := pn.hasSideEffect || e.imported })
        p fg.passNodes },
    { index := nIdx, version := newVer })
  else none

/-- Modelled from the spec (§4.1 `sideEffect`): the body of
`FrameGraph::Builder::sideEffect` (declared `FrameGraph.h:109`) marks the
pass as non-cullable. -/
def sideEffectImpl (fg : FrameGraph) (p : Nat) : FrameGraph :=
  let passes := modifyNth (fun pn => { pn with hasSideEffect := true }) p
    fg.passNodes
  { fg with passNodes := passes }

/-- Modelled from the spec (§6 `present`): the body of
`FrameGraph::present` (declared `FrameGraph.h:177`) adds a reference to the
handle's node, preventing it from being culled. -/
def present (fg : FrameGraph) (r : FrameGraphResource) : FrameGraph :=
  { fg with presentRefs := fg.presentRefs ++ [r.index] }

/-- Modelled from the spec: the body of the private
`FrameGraph::moveResource` overload (declared `FrameGraph.h:301`) is not
under `src/`.  Per the comment at `FrameGraph.h:205-210` it records the
alias, invalidates `from` as if it had been written (entry version bump and
a fresh node) and returns a new handle for `from`'s resource.  The nodes
pointing to `from`'s entry at move time are recorded in the alias so that
compile can disconnect exactly the writes to `from` made prior to the move
(spec §4.4 step 1). -/
def moveResource (fg : FrameGraph) (rfrom rto : FrameGraphResource) :
    Option (FrameGraph × FrameGraphResource) :=
  if fg.isValid rfrom && fg.isValid rto then
    let nFrom := fg.resourceNodes.getD rfrom.index default
    let fromEntry := nFrom.resource
    let cutoff := fg.resourceNodes.length
    let disconnects := (List.range cutoff).filter
      (fun i => (fg.resourceNodes.getD i default).resource == fromEntry)
    let e := fg.entries.getD fromEntry default
    let newVer := e.version + 1
    let newNode : ResourceNode :=
      { resource := fromEntry, version := newVer, readerCount := 0,
        writer := none }
    some ({ fg with
      entries := modifyNth (fun en => { en with version := newVer })
        fromEntry fg.entries,
      resourceNodes := fg.resourceNodes ++ [newNode],
      aliases := fg.aliases ++
        [{ fromNode := rfrom.index, toNode := rto.index, disconnects }] },
    { index := cutoff, version := newVer })
  else none

/-- `FrameGraph::getDescriptor` (`FrameGraph.h:184-188`): returns the
descriptor of the entry the handle's node currently points to.  The source
reaches the entry through `getResourceEntryUnchecked`
(`FrameGraph.h:296-299`); modelled from the spec: the body of
`getResourceEntryBaseUnchecked` is not under `src/` and is modelled, per its
name and its pairing with the checked `getResourceEntryBase`, as a direct
entry lookup that performs no handle-version validation. -/
def getDescriptor (fg : FrameGraph) (r : FrameGraphResource) : Nat :=
  (fg.entries.getD (fg.resourceNodes.getD r.index default).resource
    default).descriptor

/-- Whether node index `w` is disconnected by some recorded alias: it was a
node of the aliased `from` entry existing when the move was declared
(spec §4.4 step 1, "writers of `from` prior to the alias"). -/
def isDisconnected (fg : FrameGraph) (w : Nat) : Bool :=
  fg.aliases.any (fun a => a.disconnects.contains w)

/-- One alias-resolution redirection (spec §4.4 step 1): every node whose
entry equals `to`'s entry is redirected to `from`'s entry.  This matches the
comment at `FrameGraph.h:205-207`: "all handles referring to the resource
'to' are redirected to the resource 'from'". -/
def redirectStep (nodes : List ResourceNode) (a : Alias) : List ResourceNode :=
  let fromE := (nodes.getD a.fromNode default).resource
  let toE := (nodes.getD a.toNode default).resource
  nodes.map (fun n => if n.resource == toE then { n with resource := fromE }
                      else n)

/-- Modelled from the spec (§4.4 step 1): compile's alias resolution.
Aliases are redirected in recording order; then the writes to `from` made
prior to each move are disconnected: they are removed from their passes'
write lists (so they contribute zero to the pass refcounts computed in
step 2) and the corresponding nodes lose their writer link. -/
def resolveAliases (fg : FrameGraph) : FrameGraph :=
  let redirected := fg.aliases.foldl redirectStep fg.resourceNodes
  let nodes := mapIdxGo
    (fun i n => if fg.isDisconnected i then { n with writer := none } else n)
    0 redirected
  let passes := fg.passNodes.map
    (fun p => { p with writes := p.writes.filter (fun w => !fg.isDisconnected w) })
  { fg with resourceNodes := nodes, passNodes := passes }

/-- The declared-read count of node `i`: its occurrences in all passes'
read lists plus its `present` references (spec §4.4 step 2). -/
def totalReads (fg : FrameGraph) (i : Nat) : Nat :=
  (fg.passNodes.foldl (fun acc p => acc + p.reads.count i) 0) +
    fg.presentRefs.count i

/-- Modelled from the spec (§4.4 step 2): initial reference counts.  For
each pass, `refCount = writes + (sideEffect ? 1 : 0)`; for each node,
`refCount = declared reads (+ present references)`. -/
def initRefCounts (fg : FrameGraph) : FrameGraph :=
  let passes := fg.passNodes.map
    (fun p => { p with refCount :=
      p.writes.length + (if p.hasSideEffect then 1 else 0) })
  let nodes := mapIdxGo
    (fun i n => { n with readerCount := fg.totalReads i }) 0 fg.resourceNodes
  { fg with passNodes := passes, resourceNodes := nodes }

/-- Decrement the read-refcount of each node in `reads` (the reads of a
culled pass, spec §4.4 step 3), collecting in `pushes` the nodes whose
refcount thereby reaches zero. -/
def decReads : List Nat → List ResourceNode → List Nat →
    List ResourceNode × List Nat
  | [], ns, ps => (ns, ps)
  | r :: rs, ns, ps =>
    decReads rs
      (modifyNth (fun m => { m with readerCount := m.readerCount - 1 }) r ns)
      (if (ns.getD r default).readerCount == 1 then ps ++ [r] else ps)

/-- One step of cull propagation (spec §4.4 step 3): the popped node's
writer pass loses a reference; if the pass's refcount reaches zero and the
pass has no side effect, the refcount of every node it reads is
decremented, and nodes reaching zero are pushed. -/
def cullStep (fg : FrameGraph) (n : Nat) : FrameGraph × List Nat :=
  match (fg.resourceNodes.getD n default).writer with
  | none => (fg, [])
  | some p =>
    let pn := fg.passNodes.getD p default
    let newRc := pn.refCount - 1
    let passes := modifyNth (fun q => { q with refCount := newRc }) p
      fg.passNodes
    let fg1 := { fg with passNodes := passes }
    if newRc == 0 && !pn.hasSideEffect then
      let (nodes', pushes) := decReads pn.reads fg1.resourceNodes []
      ({ fg1 with resourceNodes := nodes' }, pushes)
    else (fg1, [])

/-- The cull worklist loop, fuelled for termination (spec §4.4 step 3). -/
def cullLoop : Nat → FrameGraph → List Nat → FrameGraph
  | 0, fg, _ => fg
  | _ + 1, fg, [] => fg
  | fuel + 1, fg, n :: rest =>
    let (fg', pushes) := cullStep fg n
    cullLoop fuel fg' (pushes ++ rest)

/-- Modelled from the spec (§4.4 step 3): cull propagation, seeded with
every node whose refcount is zero.  The fuel bound `2·nodes+1` exceeds the
worst-case number of pops (each node is pushed at most once). -/
def cull (fg : FrameGraph) : FrameGraph :=
  let stack := (List.range fg.resourceNodes.length).filter
    (fun i => (fg.resourceNodes.getD i default).readerCount == 0)
  cullLoop (2 * fg.resourceNodes.length + 1) fg stack

/-- The passes surviving compile, in declaration order: those whose
refcount is non-zero after cull propagation (spec §4.4 step 3). -/
def survivors (fg : FrameGraph) : List Nat :=
  (List.range fg.passNodes.length).filter
    (fun i => (fg.passNodes.getD i default).refCount != 0)

/-- Whether pass `i` reads or writes a node of entry `e` (spec §4.4
step 4). -/
def usesEntry (fg : FrameGraph) (i e : Nat) : Bool :=
  let p := fg.passNodes.getD i default
  (p.reads ++ p.writes).any
    (fun w => (fg.resourceNodes.getD w default).resource == e)

/-- Modelled from the spec (§4.4 step 4): lifetime assignment.  Walking the
surviving passes in declaration order, each entry's first-use is the first
surviving pass reading or writing it and its last-use the last such pass. -/
def computeLifetimes (fg : FrameGraph) : FrameGraph :=
  let entries := mapIdxGo
    (fun e ent =>
      let users := fg.survivors.filter (fun i => fg.usesEntry i e)
      { ent with firstUse := users.head?, lastUse := users.getLast? })
    0 fg.entries
  { fg with entries := entries }

/-- Modelled from the spec (§4.4): `FrameGraph::compile`
(declared `FrameGraph.h:217`): alias resolution, then initial refcounts,
then cull propagation, then lifetime assignment.  (Render-target pooling
and discard flags, steps 5-6, concern no claim and are not modelled.) -/
def compile (fg : FrameGraph) : FrameGraph :=
  fg.resolveAliases.initRefCounts.cull.computeLifetimes

/-- The entries instantiated right before pass `i` runs: the non-imported
entries whose first-use is `i` (spec §4.5). -/
def instantiated (fg : FrameGraph) (i : Nat) : List Nat :=
  (List.range fg.entries.length).filter
    (fun e =>
      let ent := fg.entries.getD e default
      !ent.imported && ent.firstUse == some i)

/-- The entries destroyed right after pass `i` runs: the non-imported
entries whose last-use is `i` (spec §4.5, §4.7: imported entries are never
destroyed by the executor). -/
def destroyed (fg : FrameGraph) (i : Nat) : List Nat :=
  (List.range fg.entries.length).filter
    (fun e =>
      let ent := fg.entries.getD e default
      !ent.imported && ent.lastUse == some i)

/-- The events emitted while executing surviving pass `i`: backend creates
for entries first used here, the execute-callback invocation, then backend
destroys for entries last used here (spec §4.5). -/
def passEvents (fg : FrameGraph) (i : Nat) : List FgEvent :=
  (fg.instantiated i).map FgEvent.createResource ++
    [FgEvent.executeRun i] ++
    (fg.destroyed i).map FgEvent.destroyResource

/-- The full event trace of the execute phase: surviving passes run in
declaration order (spec §4.5). -/
def executeEvents (fg : FrameGraph) : List FgEvent :=
  (fg.survivors.map fg.passEvents).flatten

/-- Modelled from the spec (§4.5): `FrameGraph::execute`
(declared `FrameGraph.h:220` and `FrameGraph.h:229`): records the execute
phase's observable events.  The driver is opaque; only the event trace is
modelled. -/
def execute (fg : FrameGraph) : FrameGraph :=
  { fg with events := fg.events ++ fg.executeEvents }

end FrameGraph

/-- Deep-embedded setup-callback operations (spec §4.1): handles produced
by earlier operations of the same setup are referenced by their position in
the builder's handle environment. -/
inductive BuilderOp where
  | createRes (name : String) (desc : Nat)
  | readRes (ref : Nat) (doesntNeedTexture : Bool)
  | writeRes (ref : Nat)
  | sideEffectOp
  deriving DecidableEq

namespace FrameGraph

/-- Run one builder operation for pass `p`.  Modelled from the spec (§7):
declaration errors (an out-of-version or unknown handle) fail the frame
build; they are modelled as leaving the state unchanged, which no claim
depends on. -/
def runOp (p : Nat) (acc : FrameGraph × List FrameGraphResource)
    (op : BuilderOp) : FrameGraph × List FrameGraphResource :=
  let (fg, env) := acc
  match op with
  | .createRes name desc =>
    let (fg', r) := fg.createResource name desc
    (fg', env ++ [r])
  | .readRes ref _ =>
    match fg.readImpl p (env.getD ref default) with
    | some (fg', r) => (fg', env ++ [r])
    | none => (fg, env)
  | .writeRes ref =>
    match fg.writeImpl p (env.getD ref default) with
    | some (fg', r) => (fg', env ++ [r])
    | none => (fg, env)
  | .sideEffectOp => (fg.sideEffectImpl p, env)

/-- Run a setup callback (a list of builder operations) for pass `p`. -/
def runSetup (fg : FrameGraph) (p : Nat) (setup : List BuilderOp) :
    FrameGraph :=
  (setup.foldl (runOp p) (fg, [])).1

/-- `FrameGraph::addPass` (`FrameGraph.h:158-174`).  From the source: the
execute callback is rejected at compile time unless its captured state is
smaller than 1024 bytes (`static_assert(sizeof(Execute) < 1024)`,
`FrameGraph.h:160`, modelled as the `execSize` guard); the pass node is
created, the setup callback is invoked synchronously with a `Builder` for
the new pass, and the execute callback (opaque token `execTok`) is stored
in the pass for the execute phase. -/
def addPass (fg : FrameGraph) (name : String) (setup : List BuilderOp)
    (execTok : Nat) (execSize : Nat) : Option FrameGraph :=
  if execSize < 1024 then
    let pIdx := fg.passNodes.length
    let fg1 := { fg with
      passNodes := fg.passNodes ++
        [{ name, reads := [], writes := [], hasSideEffect := false,
           refCount := 0, exec := execTok }],
      events := fg.events ++ [FgEvent.setupRun pIdx] }
    some (runSetup fg1 pIdx setup)
  else none

end FrameGraph

/-! ### Basic lemmas about the list helpers -/

theorem length_modifyNth {α : Type} (f : α → α) (i : Nat) (l : List α) :
    (modifyNth f i l).length = l.length := by
  induction l generalizing i with
  | nil => cases i <;> rfl
  | cons a as ih =>
    cases i with
    | zero => rfl
    | succ n => simp [modifyNth, ih]

theorem getElem?_modifyNth_self {α : Type} (f : α → α) (i : Nat) (l : List α) :
    (modifyNth f i l)[i]? = (l[i]?).map f := by
  induction l generalizing i with
  | nil => cases i <;> rfl
  | cons a as ih =>
    cases i with
    | zero => simp [modifyNth]
    | succ n => simpa [modifyNth] using ih n

theorem getElem?_modifyNth_ne {α : Type} (f : α → α) (i j : Nat) (l : List α)
    (h : j ≠ i) : (modifyNth f i l)[j]? = l[j]? := by
  induction l generalizing i j with
  | nil => cases i <;> rfl
  | cons a as ih =>
    cases i with
    | zero =>
      cases j with
      | zero => exact absurd rfl h
      | succ m => simp [modifyNth]
    | succ n =>
      cases j with
      | zero => simp [modifyNth]
      | succ m =>
        simpa [modifyNth] using ih n m (fun hc => h (by omega))

theorem length_mapIdxGo {α : Type} (f : Nat → α → α) (k : Nat) (l : List α) :
    (mapIdxGo f k l).length = l.length := by
  induction l generalizing k with
  | nil => rfl
  | cons a as ih => simp [mapIdxGo, ih]

theorem getElem?_mapIdxGo {α : Type} (f : Nat → α → α) (k i : Nat)
    (l : List α) : (mapIdxGo f k l)[i]? = (l[i]?).map (f (k + i)) := by
  induction l generalizing k i with
  | nil => cases i <;> rfl
  | cons a as ih =>
    cases i with
    | zero => simp [mapIdxGo]
    | succ n =>
      have h1 : (mapIdxGo f k (a :: as))[n + 1]? = (mapIdxGo f (k + 1) as)[n]? := by
        simp [mapIdxGo]
      have h2 : k + 1 + n = k + (n + 1) := by omega
      rw [h1, ih (k + 1) n, h2]
      simp

theorem getElem?_some_lt {α : Type} {l : List α} {i : Nat} {a : α}
    (h : l[i]? = some a) : i < l.length := by
  by_contra hc
  rw [List.getElem?_eq_none (Nat.le_of_not_lt hc)] at h
  cases h

theorem getD_of_getElem? {α : Type} {l : List α} {i : Nat} {a : α} (d : α)
    (h : l[i]? = some a) : l.getD i d = a := by
  simp [List.getD_eq_getElem?_getD, h]

namespace FrameGraph

/-- Characterisation of handle validity (spec §3). -/
theorem isValid_iff (fg : FrameGraph) (r : FrameGraphResource) :
    fg.isValid r = true ↔
      ∃ n e, fg.resourceNodes[r.index]? = some n ∧
        fg.entries[n.resource]? = some e ∧
        r.version = n.version ∧ n.version = e.version := by
  constructor
  · intro h
    unfold isValid at h
    split at h
    · cases h
    · next n hn =>
      split at h
      · cases h
      · next e he =>
        rw [Bool.and_eq_true, beq_iff_eq, beq_iff_eq] at h
        exact ⟨n, e, hn, he, h.1, h.2⟩
  · rintro ⟨n, e, hn, he, h1, h2⟩
    simp [isValid, hn, he, h1, h2]

end FrameGraph

namespace FrameGraph

theorem readImpl_events {fg fg' : FrameGraph} {p : Nat}
    {r r' : FrameGraphResource} (h : fg.readImpl p r = some (fg', r')) :
    fg'.events = fg.events := by
  unfold readImpl at h
  split at h
  · cases h; rfl
  · cases h

theorem writeImpl_events {fg fg' : FrameGraph} {p : Nat}
    {r r' : FrameGraphResource} (h : fg.writeImpl p r = some (fg', r')) :
    fg'.events = fg.events := by
  unfold writeImpl at h
  split at h
  · cases h; rfl
  · cases h

theorem runOp_events (p : Nat) (acc : FrameGraph × List FrameGraphResource)
    (op : BuilderOp) : (runOp p acc op).1.events = acc.1.events := by
  obtain ⟨fg, env⟩ := acc
  cases op with
  | createRes name desc => rfl
  | readRes ref dnt =>
    simp only [runOp]
    cases h : fg.readImpl p (env.getD ref default) with
    | none => rfl
    | some pr =>
      obtain ⟨fg2, r2⟩ := pr
      exact readImpl_events h
  | writeRes ref =>
    simp only [runOp]
    cases h : fg.writeImpl p (env.getD ref default) with
    | none => rfl
    | some pr =>
      obtain ⟨fg2, r2⟩ := pr
      exact writeImpl_events h
  | sideEffectOp => rfl

theorem runSetup_events (fg : FrameGraph) (p : Nat) (setup : List BuilderOp) :
    (fg.runSetup p setup).events = fg.events := by
  unfold runSetup
  suffices h : ∀ acc : FrameGraph × List FrameGraphResource,
      (setup.foldl (runOp p) acc).1.events = acc.1.events from h (fg, [])
  induction setup with
  | nil => intro acc; rfl
  | cons op ops ih =>
    intro acc
    simpa [List.foldl_cons, ih (runOp p acc op)] using runOp_events p acc op

theorem map_exec_modifyNth (f : PassNode → PassNode)
    (hf : ∀ q, (f q).exec = q.exec) (i j : Nat) (l : List PassNode) :
    ((modifyNth f i l)[j]?).map PassNode.exec = (l[j]?).map PassNode.exec := by
  by_cases h : j = i
  · subst h
    rw [getElem?_modifyNth_self]
    cases l[j]? with
    | none => rfl
    | some q => simp [hf]
  · rw [getElem?_modifyNth_ne _ _ _ _ h]

theorem readImpl_exec {fg fg' : FrameGraph} {p : Nat}
    {r r' : FrameGraphResource} (h : fg.readImpl p r = some (fg', r'))
    (j : Nat) :
    ((fg'.passNodes[j]?).map PassNode.exec) =
      ((fg.passNodes[j]?).map PassNode.exec) := by
  unfold readImpl at h
  split at h
  · cases h
    exact map_exec_modifyNth
      (fun pn => { pn with reads := pn.reads ++ [r.index] })
      (fun q => rfl) p j fg.passNodes
  · cases h

theorem writeImpl_exec {fg fg' : FrameGraph} {p : Nat}
    {r r' : FrameGraphResource} (h : fg.writeImpl p r = some (fg', r'))
    (j : Nat) :
    ((fg'.passNodes[j]?).map PassNode.exec) =
      ((fg.passNodes[j]?).map PassNode.exec) := by
  unfold writeImpl at h
  split at h
  · cases h
    exact map_exec_modifyNth
      (fun pn => { pn with
        writes := pn.writes ++ [fg.resourceNodes.length],
        hasSideEffect := pn.hasSideEffect ||
          (fg.entries.getD (fg.resourceNodes.getD r.index default).resource
            default).imported })
      (fun q => rfl) p j fg.passNodes
  · cases h

theorem runOp_exec (p : Nat) (acc : FrameGraph × List FrameGraphResource)
    (op : BuilderOp) (j : Nat) :
    (((runOp p acc op).1.passNodes[j]?).map PassNode.exec) =
      ((acc.1.passNodes[j]?).map PassNode.exec) := by
  obtain ⟨fg, env⟩ := acc
  cases op with
  | createRes name desc => rfl
  | readRes ref dnt =>
    simp only [runOp]
    cases h : fg.readImpl p (env.getD ref default) with
    | none => rfl
    | some pr =>
      obtain ⟨fg2, r2⟩ := pr
      exact readImpl_exec h j
  | writeRes ref =>
    simp only [runOp]
    cases h : fg.writeImpl p (env.getD ref default) with
    | none => rfl
    | some pr =>
      obtain ⟨fg2, r2⟩ := pr
      exact writeImpl_exec h j
  | sideEffectOp =>
    exact map_exec_modifyNth (fun pn => { pn with hasSideEffect := true })
      (fun q => rfl) p j fg.passNodes

theorem runSetup_exec (fg : FrameGraph) (p : Nat) (setup : List BuilderOp)
    (j : Nat) :
    (((fg.runSetup p setup).passNodes[j]?).map PassNode.exec) =
      ((fg.passNodes[j]?).map PassNode.exec) := by
  unfold runSetup
  suffices h : ∀ acc : FrameGraph × List FrameGraphResource,
      (((setup.foldl (runOp p) acc).1.passNodes[j]?).map PassNode.exec) =
        ((acc.1.passNodes[j]?).map PassNode.exec) from h (fg, [])
  induction setup with
  | nil => intro acc; rfl
  | cons op ops ih =>
    intro acc
    simpa [List.foldl_cons, ih (runOp p acc op)] using runOp_exec p acc op j

end FrameGraph

/-! ### C9 — the `addPass` captured-state size guard -/

/-- C9: `addPass` statically rejects any execute callback whose captured
state is 1024 bytes or larger (`static_assert(sizeof(Execute) < 1024)`,
`FrameGraph.h:160`): a pass is accepted exactly when the execute callback's
size is strictly below 1024 bytes, so every accepted execute callback
satisfies `sizeof(Execute) < 1024`. -/
theorem claim_C9_addPass_size_guard (fg : FrameGraph) (name : String)
    (setup : List BuilderOp) (execTok execSize : Nat) :
    (fg.addPass name setup execTok execSize).isSome = true ↔ execSize < 1024 := by
  unfold FrameGraph.addPass
  by_cases h : execSize < 1024 <;> simp [h]

/-! ### C8 — `addPass` invokes setup synchronously, stores execute -/

/-- C8: for every `addPass(name, setup, execute)` call
(`FrameGraph.h:158-174`), the setup callback is invoked exactly once,
synchronously, before `addPass` returns — witnessed by the event trace of
the returned graph being the prior trace extended by exactly one
`setupRun` for the new pass, and by the returned graph already containing
the effects of running `setup` (it *is* `runSetup` of the new pass).  The
execute callback is not invoked by `addPass`: it is stored in the new pass
node, and `executeRun` events for a pass are emitted (only) by the execute
phase for the surviving passes. -/
theorem claim_C8_addPass_callback_protocol (fg : FrameGraph) (name : String)
    (setup : List BuilderOp) (execTok execSize : Nat) (fg' : FrameGraph)
    (h : fg.addPass name setup execTok execSize = some fg') :
    fg'.events = fg.events ++ [FgEvent.setupRun fg.passNodes.length] ∧
    ((fg'.passNodes[fg.passNodes.length]?).map PassNode.exec) = some execTok ∧
    (∀ g : FrameGraph, ∀ i, i ∈ g.survivors →
      FgEvent.executeRun i ∈ g.executeEvents) := by
  unfold FrameGraph.addPass at h
  split at h
  case isFalse => cases h
  case isTrue hsz =>
    cases h
    refine ⟨?_, ?_, ?_⟩
    · rw [FrameGraph.runSetup_events]
    · rw [FrameGraph.runSetup_exec]
      rw [List.getElem?_concat_length]
      rfl
    · intro g i hi
      rw [FrameGraph.executeEvents, List.mem_flatten]
      refine ⟨g.passEvents i, List.mem_map_of_mem _ hi, ?_⟩
      simp [FrameGraph.passEvents]

/-- Witness for C8 at a concrete input: adding a pass with an empty setup
to the empty frame graph. -/
theorem claim_C8_witness :
    (((FrameGraph.empty.addPass "p" [] 5 0).getD default).events =
        FrameGraph.empty.events ++ [FgEvent.setupRun 0]) ∧
    (((((FrameGraph.empty.addPass "p" [] 5 0).getD
        default).passNodes[0]?).map PassNode.exec) = some 5) ∧
    (∀ g : FrameGraph, ∀ i, i ∈ g.survivors →
      FgEvent.executeRun i ∈ g.executeEvents) :=
  claim_C8_addPass_callback_protocol FrameGraph.empty "p" [] 5 0
    ((FrameGraph.empty.addPass "p" [] 5 0).getD default) (by rfl)

/-! ### C1 — writing invalidates the prior handle -/

/-- C1: for every handle `r` a pass's setup passes to `Builder::write`
(`FrameGraph.h:91-95`; the write succeeds, i.e. `r` is in version), the
call returns a new handle `r'` onto the same underlying resource, carrying
the bumped version (`r.version + 1`); afterwards the prior handle `r` is no
longer `isValid` (`FrameGraph.h:179-181`) while `r'` is valid. -/
theorem claim_C1_write_bumps_and_invalidates (fg : FrameGraph) (p : Nat)
    (r : FrameGraphResource) (fg' : FrameGraph) (r' : FrameGraphResource)
    (hw : fg.writeImpl p r = some (fg', r')) :
    fg'.isValid r = false ∧
    fg'.isValid r' = true ∧
    (fg'.resourceNodes.getD r'.index default).resource =
      (fg.resourceNodes.getD r.index default).resource ∧
    r'.version = r.version + 1 := by
  unfold FrameGraph.writeImpl at hw
  split at hw
  case isFalse => cases hw
  case isTrue h =>
  cases hw
  obtain ⟨n, e, hn, he, hv1, hv2⟩ := (FrameGraph.isValid_iff fg r).mp h
  have hnD : fg.resourceNodes.getD r.index default = n := getD_of_getElem? _ hn
  have heD : fg.entries.getD n.resource default = e := getD_of_getElem? _ he
  have hrlt : r.index < fg.resourceNodes.length := getElem?_some_lt hn
  have helt : n.resource < fg.entries.length := getElem?_some_lt he
  refine ⟨?_, ?_, ?_, ?_⟩
  · -- the prior handle is now out of version
    rw [FrameGraph.isValid]
    have h1 : ((fg.resourceNodes ++
        [{ resource := (fg.resourceNodes.getD r.index default).resource,
           version := (fg.entries.getD
             (fg.resourceNodes.getD r.index default).resource default).version + 1,
           readerCount := 0,
           writer := some p }] : List ResourceNode))[r.index]? = some n := by
      rw [List.getElem?_append_left hrlt]; exact hn
    rw [h1]
    have h2 : (modifyNth
        (fun en => { en with version :=
          (fg.entries.getD (fg.resourceNodes.getD r.index default).resource
            default).version + 1 })
        (fg.resourceNodes.getD r.index default).resource
        fg.entries)[n.resource]? = some { e with version := e.version + 1 } := by
      rw [hnD, getElem?_modifyNth_self, he, heD]
      rfl
    dsimp only
    rw [h2]
    simp only [Bool.and_eq_false_iff, beq_eq_false_iff_ne, ne_eq]
    right
    rw [hv2]
    omega
  · -- the returned handle is valid
    rw [FrameGraph.isValid]
    have h1 : ((fg.resourceNodes ++
        [{ resource := (fg.resourceNodes.getD r.index default).resource,
           version := (fg.entries.getD
             (fg.resourceNodes.getD r.index default).resource default).version + 1,
           readerCount := 0,
           writer := some p }] : List ResourceNode))[fg.resourceNodes.length]? =
        some { resource := n.resource, version := e.version + 1,
               readerCount := 0, writer := some p } := by
      rw [List.getElem?_concat_length, hnD, heD]
    rw [h1]
    have h2 : (modifyNth
        (fun en => { en with version :=
          (fg.entries.getD (fg.resourceNodes.getD r.index default).resource
            default).version + 1 })
        (fg.resourceNodes.getD r.index default).resource
        fg.entries)[n.resource]? = some { e with version := e.version + 1 } := by
      rw [hnD, getElem?_modifyNth_self, he, heD]
      rfl
    dsimp only
    rw [h2]
    simp [hnD, heD]
    rw [hn]
    simp [he]
  · -- same underlying resource entry
    have h1 : ((fg.resourceNodes ++
        [{ resource := (fg.resourceNodes.getD r.index default).resource,
           version := (fg.entries.getD
             (fg.resourceNodes.getD r.index default).resource default).version + 1,
           readerCount := 0,
           writer := some p }] : List ResourceNode)).getD
          fg.resourceNodes.length default =
        { resource := n.resource, version := e.version + 1,
          readerCount := 0, writer := some p } := by
      refine getD_of_getElem? _ ?_
      rw [List.getElem?_concat_length, hnD, heD]
    rw [h1, hnD]
  · -- the version is bumped
    rw [hnD, heD, hv1, hv2]

/-- Witness for C1 at a concrete input: writing the handle returned by
`create` on the empty frame graph. -/
theorem claim_C1_witness :
    (((FrameGraph.empty.createResource "t" 3).1.writeImpl 0
        (FrameGraph.empty.createResource "t" 3).2).getD default |>.1).isValid
      (FrameGraph.empty.createResource "t" 3).2 = false ∧
    (((FrameGraph.empty.createResource "t" 3).1.writeImpl 0
        (FrameGraph.empty.createResource "t" 3).2).getD default |>.1).isValid
      (((FrameGraph.empty.createResource "t" 3).1.writeImpl 0
        (FrameGraph.empty.createResource "t" 3).2).getD default |>.2) = true ∧
    ((((FrameGraph.empty.createResource "t" 3).1.writeImpl 0
        (FrameGraph.empty.createResource "t" 3).2).getD default
        |>.1).resourceNodes.getD
          (((FrameGraph.empty.createResource "t" 3).1.writeImpl 0
            (FrameGraph.empty.createResource "t" 3).2).getD default
            |>.2).index default).resource =
      ((FrameGraph.empty.createResource "t" 3).1.resourceNodes.getD
        (FrameGraph.empty.createResource "t" 3).2.index default).resource ∧
    (((FrameGraph.empty.createResource "t" 3).1.writeImpl 0
        (FrameGraph.empty.createResource "t" 3).2).getD default |>.2).version =
      (FrameGraph.empty.createResource "t" 3).2.version + 1 :=
  claim_C1_write_bumps_and_invalidates
    (FrameGraph.empty.createResource "t" 3).1 0
    (FrameGraph.empty.createResource "t" 3).2
    (((FrameGraph.empty.createResource "t" 3).1.writeImpl 0
        (FrameGraph.empty.createResource "t" 3).2).getD default |>.1)
    (((FrameGraph.empty.createResource "t" 3).1.writeImpl 0
        (FrameGraph.empty.createResource "t" 3).2).getD default |>.2)
    (by decide)

/-! ### C10 — `getDescriptor` performs no version validation -/

/-- C10: `FrameGraph::getDescriptor` (`FrameGraph.h:184-188`) reaches the
entry through `getResourceEntryUnchecked` (`FrameGraph.h:296-299`) and so
does not validate the handle's version: after a write has invalidated the
handle `r`, `getDescriptor` still returns (without signalling any error)
the descriptor of the entry `r`'s node currently points to — the same
descriptor as before the write — and its result does not consult the
handle's version component at all. -/
theorem claim_C10_getDescriptor_no_validation (fg : FrameGraph) (p : Nat)
    (r : FrameGraphResource) (fg' : FrameGraph) (r' : FrameGraphResource)
    (hw : fg.writeImpl p r = some (fg', r'))
    (hinv : fg'.isValid r = false) :
    fg'.getDescriptor r = fg.getDescriptor r ∧
    (∀ v, fg'.getDescriptor { index := r.index, version := v } =
      fg'.getDescriptor r) := by
  unfold FrameGraph.writeImpl at hw
  split at hw
  case isFalse => cases hw
  case isTrue h =>
  cases hw
  obtain ⟨n, e, hn, he, hv1, hv2⟩ := (FrameGraph.isValid_iff fg r).mp h
  have hnD : fg.resourceNodes.getD r.index default = n := getD_of_getElem? _ hn
  have heD : fg.entries.getD n.resource default = e := getD_of_getElem? _ he
  have hrlt : r.index < fg.resourceNodes.length := getElem?_some_lt hn
  refine ⟨?_, fun v => rfl⟩
  unfold FrameGraph.getDescriptor
  dsimp only
  have h1 : ((fg.resourceNodes ++
      [{ resource := (fg.resourceNodes.getD r.index default).resource,
         version := (fg.entries.getD
           (fg.resourceNodes.getD r.index default).resource default).version + 1,
         readerCount := 0,
         writer := some p }] : List ResourceNode)).getD r.index default = n := by
    refine getD_of_getElem? _ ?_
    rw [List.getElem?_append_left hrlt]
    exact hn
  rw [h1, hnD, heD]
  have h2 : (modifyNth (fun en => { en with version := e.version + 1 })
      n.resource fg.entries).getD n.resource default =
      { e with version := e.version + 1 } := by
    refine getD_of_getElem? _ ?_
    rw [getElem?_modifyNth_self, he]
    rfl
  rw [h2]

/-- Witness for C10 at a concrete input: the handle returned by `create`
on the empty frame graph, invalidated by a write. -/
theorem claim_C10_witness :
    ((((FrameGraph.empty.createResource "t" 3).1.writeImpl 0
        (FrameGraph.empty.createResource "t" 3).2).getD default
        |>.1).getDescriptor (FrameGraph.empty.createResource "t" 3).2 =
      (FrameGraph.empty.createResource "t" 3).1.getDescriptor
        (FrameGraph.empty.createResource "t" 3).2) ∧
    (∀ v, (((FrameGraph.empty.createResource "t" 3).1.writeImpl 0
        (FrameGraph.empty.createResource "t" 3).2).getD default
        |>.1).getDescriptor
          { index := (FrameGraph.empty.createResource "t" 3).2.index,
            version := v } =
      (((FrameGraph.empty.createResource "t" 3).1.writeImpl 0
        (FrameGraph.empty.createResource "t" 3).2).getD default
        |>.1).getDescriptor (FrameGraph.empty.createResource "t" 3).2) :=
  claim_C10_getDescriptor_no_validation
    (FrameGraph.empty.createResource "t" 3).1 0
    (FrameGraph.empty.createResource "t" 3).2
    (((FrameGraph.empty.createResource "t" 3).1.writeImpl 0
        (FrameGraph.empty.createResource "t" 3).2).getD default |>.1)
    (((FrameGraph.empty.createResource "t" 3).1.writeImpl 0
        (FrameGraph.empty.createResource "t" 3).2).getD default |>.2)
    (by decide) (by decide)

/-! ### C2 / C3 — the direction of alias redirection -/

namespace FrameGraph

/-- Pointwise description of `resolveAliases` on a graph with a single
recorded alias. -/
theorem resolveAliases_single (fg : FrameGraph) (a : Alias)
    (ha : fg.aliases = [a]) (i : Nat) :
    (fg.resolveAliases.resourceNodes)[i]? = (fg.resourceNodes[i]?).map
      (fun n =>
        let fromE := (fg.resourceNodes.getD a.fromNode default).resource
        let toE := (fg.resourceNodes.getD a.toNode default).resource
        let n1 := if n.resource == toE then { n with resource := fromE }
                  else n
        if fg.isDisconnected i then { n1 with writer := none } else n1) := by
  simp only [resolveAliases, ha, List.foldl_cons, List.foldl_nil]
  rw [getElem?_mapIdxGo]
  unfold redirectStep
  rw [List.getElem?_map]
  cases fg.resourceNodes[i]? with
  | none => rfl
  | some n => simp [Nat.zero_add]

end FrameGraph

/-- C2: for a recorded alias `moveResource(from, to)`, after compile's
alias-resolution step (`FrameGraph.resolveAliases`, spec §4.4 step 1) every
resource node whose entry equals `to`'s entry — including nodes of handles
obtained before the move — is redirected to `from`'s entry, so reading `to`
afterwards yields the resource that used to back `from`
(`FrameGraph.h:205-207`).  Stated for the state right after the move
(aliases resolve in recording order, so this is the per-alias resolution
step). -/
theorem claim_C2_alias_redirects_to_onto_from (fg fg1 : FrameGraph)
    (rfrom rto : FrameGraphResource) (r1 : FrameGraphResource)
    (hm : fg.moveResource rfrom rto = some (fg1, r1))
    (ha : fg.aliases = [])
    (i : Nat) (n : ResourceNode)
    (hi : fg1.resourceNodes[i]? = some n)
    (hto : n.resource = (fg1.resourceNodes.getD rto.index default).resource) :
    ((fg1.resolveAliases.resourceNodes.getD i default)).resource =
      (fg1.resourceNodes.getD rfrom.index default).resource := by
  unfold FrameGraph.moveResource at hm
  split at hm
  case isFalse => cases hm
  case isTrue hv =>
  cases hm
  have ha1 : ({ fg with
      entries := modifyNth
        (fun en => { en with version :=
          (fg.entries.getD
            (fg.resourceNodes.getD rfrom.index default).resource
            default).version + 1 })
        (fg.resourceNodes.getD rfrom.index default).resource fg.entries,
      resourceNodes := fg.resourceNodes ++
        [{ resource := (fg.resourceNodes.getD rfrom.index default).resource,
           version := (fg.entries.getD
             (fg.resourceNodes.getD rfrom.index default).resource
             default).version + 1,
           readerCount := 0, writer := none }],
      aliases := fg.aliases ++
        [{ fromNode := rfrom.index, toNode := rto.index,
           disconnects := (List.range fg.resourceNodes.length).filter
             (fun j => (fg.resourceNodes.getD j default).resource ==
               (fg.resourceNodes.getD rfrom.index default).resource) }] } :
      FrameGraph).aliases =
      [{ fromNode := rfrom.index, toNode := rto.index,
         disconnects := (List.range fg.resourceNodes.length).filter
           (fun j => (fg.resourceNodes.getD j default).resource ==
             (fg.resourceNodes.getD rfrom.index default).resource) }] := by
    dsimp only
    rw [ha]
    rfl
  have hres := FrameGraph.resolveAliases_single _ _ ha1 i
  rw [hi] at hres
  rw [getD_of_getElem? default hres]
  dsimp only
  rw [hto]
  simp only [beq_self_eq_true, if_true]
  split <;> rfl

/-- Concrete two-resource graph used by the C2 witness: `x` (entry 0,
node 0) and `y` (entry 1, node 1). -/
def moveExampleBase : FrameGraph :=
  ((FrameGraph.empty.createResource "x" 11).1.createResource "y" 22).1

/-- The C2 witness graph after `moveResource (from := y) (to := x)`. -/
def moveExampleRes : FrameGraph × FrameGraphResource :=
  (moveExampleBase.moveResource { index := 1, version := 0 }
    { index := 0, version := 0 }).getD default

/-- Witness for C2 at a concrete input: after `moveResource(y, x)`, the
node of `x` (which pointed to `to`'s entry 0) is redirected to `y`'s
entry 1 by alias resolution. -/
theorem claim_C2_witness :
    ((moveExampleRes.1.resolveAliases.resourceNodes.getD 0 default)).resource =
      (moveExampleRes.1.resourceNodes.getD
        ({ index := 1, version := 0 } : FrameGraphResource).index
        default).resource :=
  claim_C2_alias_redirects_to_onto_from moveExampleBase moveExampleRes.1
    { index := 1, version := 0 } { index := 0, version := 0 }
    moveExampleRes.2 (by decide) (by decide) 0
    (moveExampleRes.1.resourceNodes.getD 0 default) (by decide) (by decide)

/-- Concrete graph refuting C3's redirection direction: node 0 points to
`from`'s entry 0, node 1 points to `to`'s entry 1, and one alias
`(fromNode 0, toNode 1)` is recorded. -/
def aliasDirExample : FrameGraph :=
  { passNodes := [],
    resourceNodes :=
      [{ resource := 0, version := 0, readerCount := 0, writer := none },
       { resource := 1, version := 0, readerCount := 0, writer := none }],
    entries :=
      [{ name := "f", descriptor := 0, imported := false, version := 0,
         firstUse := none, lastUse := none },
       { name := "t", descriptor := 0, imported := false, version := 0,
         firstUse := none, lastUse := none }],
    aliases := [{ fromNode := 0, toNode := 1, disconnects := [] }],
    presentRefs := [], events := [] }

/-- Counterexample to C3 as stated: for the recorded alias of
`aliasDirExample` (from = node 0 on entry 0, to = node 1 on entry 1), the
node pointing to `from`'s entry is NOT redirected to `to`'s entry by
compile's alias resolution — it keeps entry 0, while it is `to`'s node
that is redirected onto `from`'s entry. -/
theorem claim_C3_counterexample :
    ((aliasDirExample.resolveAliases.resourceNodes.getD 0 default).resource ≠
      (aliasDirExample.resourceNodes.getD 1 default).resource) ∧
    ((aliasDirExample.resolveAliases.resourceNodes.getD 0 default).resource = 0) ∧
    ((aliasDirExample.resolveAliases.resourceNodes.getD 1 default).resource = 0) := by
  decide

/-- C3 amended: compile resolves each recorded alias `(from, to)` by
redirecting every node that points to `to`'s entry onto `from`'s entry
(`FrameGraph.h:205-207`); a node pointing to `from`'s entry (with the two
entries distinct) is left unchanged — the opposite of the redirection
direction stated in the claim, so consumers of `to`, not of `from`, change
storage. -/
theorem claim_C3_amended_redirect_direction (nodes : List ResourceNode)
    (a : Alias) (i : Nat) (n : ResourceNode) (hi : nodes[i]? = some n) :
    (n.resource = (nodes.getD a.toNode default).resource →
      ((FrameGraph.redirectStep nodes a).getD i default).resource =
        (nodes.getD a.fromNode default).resource) ∧
    (n.resource = (nodes.getD a.fromNode default).resource →
      (nodes.getD a.fromNode default).resource ≠
        (nodes.getD a.toNode default).resource →
      (FrameGraph.redirectStep nodes a).getD i default = n) := by
  have hmap : (FrameGraph.redirectStep nodes a)[i]? = some
      (if n.resource == (nodes.getD a.toNode default).resource then
        { n with resource := (nodes.getD a.fromNode default).resource }
      else n) := by
    unfold FrameGraph.redirectStep
    rw [List.getElem?_map, hi]
    rfl
  rw [getD_of_getElem? default hmap]
  constructor
  · intro h
    rw [h]
    simp
  · intro h hne
    have hb : (n.resource == (nodes.getD a.toNode default).resource) = false := by
      rw [h]
      exact beq_eq_false_iff_ne.mpr hne
    rw [hb]
    simp

/-- Witness for the amended C3 at a concrete input: the alias of
`aliasDirExample` redirects node 1 (on `to`'s entry) onto entry 0 and
leaves node 0 (on `from`'s entry) unchanged. -/
theorem claim_C3_witness :
    ((aliasDirExample.resourceNodes.getD 1 default).resource =
        (aliasDirExample.resourceNodes.getD 1 default).resource →
      ((FrameGraph.redirectStep aliasDirExample.resourceNodes
          { fromNode := 0, toNode := 1, disconnects := [] }).getD 1
            default).resource =
        (aliasDirExample.resourceNodes.getD 0 default).resource) ∧
    ((aliasDirExample.resourceNodes.getD 1 default).resource =
        (aliasDirExample.resourceNodes.getD 0 default).resource →
      (aliasDirExample.resourceNodes.getD 0 default).resource ≠
        (aliasDirExample.resourceNodes.getD 1 default).resource →
      (FrameGraph.redirectStep aliasDirExample.resourceNodes
          { fromNode := 0, toNode := 1, disconnects := [] }).getD 1 default =
        aliasDirExample.resourceNodes.getD 1 default) :=
  claim_C3_amended_redirect_direction aliasDirExample.resourceNodes
    { fromNode := 0, toNode := 1, disconnects := [] } 1
    (aliasDirExample.resourceNodes.getD 1 default) (by decide)

/-! ### C4 — disconnected writes contribute zero to pass refcounts -/

theorem length_filter_split {α : Type} (l : List α) (d : α → Bool) :
    (l.filter (fun w => !(d w))).length + (l.filter d).length = l.length := by
  induction l with
  | nil => rfl
  | cons a as ih =>
    by_cases h : d a = true <;> simp [List.filter_cons, h] <;> omega

theorem contains_filter_range (c : Nat) (P : Nat → Bool) (w : Nat) :
    (((List.range c).filter P).contains w) = (decide (w < c) && P w) := by
  cases hP : P w <;> by_cases hw : w < c <;>
    simp [List.mem_filter, hP, hw]

namespace FrameGraph

theorem resolveAliases_passNodes (fg : FrameGraph) :
    fg.resolveAliases.passNodes = fg.passNodes.map
      (fun q => { q with
        writes := q.writes.filter (fun w => !fg.isDisconnected w) }) := rfl

theorem initRefCounts_passNodes (fg : FrameGraph) :
    fg.initRefCounts.passNodes = fg.passNodes.map
      (fun q => { q with refCount :=
        q.writes.length + (if q.hasSideEffect then 1 else 0) }) := rfl

end FrameGraph

theorem refcount_filter_balance (passes : List PassNode) (d : Nat → Bool)
    (p : Nat) :
    (((passes.map (fun q : PassNode => { q with
          writes := q.writes.filter (fun w => !(d w)) })).map
        (fun q : PassNode => { q with refCount :=
          q.writes.length + (if q.hasSideEffect then 1 else 0) })).getD p
            default).refCount +
      ((passes.getD p default).writes.filter d).length =
    (passes.getD p default).writes.length +
      (if (passes.getD p default).hasSideEffect then 1 else 0) := by
  induction passes generalizing p with
  | nil => cases p <;> rfl
  | cons q qs ih =>
    cases p with
    | zero =>
      simp only [List.map_cons, List.getD_cons_zero]
      have hsplit := length_filter_split q.writes d
      dsimp only
      omega
    | succ m =>
      simpa only [List.map_cons, List.getD_cons_succ] using ih m

/-- C4: for an alias recorded by `moveResource(from, to)`, after compile's
alias resolution and refcount initialisation (spec §4.4 steps 1-2) each
pass's reference count has been decremented by one for every write to
`from`'s entry it declared before the move: the initial refcount plus the
number of the pass's pre-move writes to `from`'s entry equals
`writes + sideEffect`, so those disconnected writes contribute zero
(`FrameGraph.h:208`). -/
theorem claim_C4_disconnected_writes_contribute_zero (fg fg1 : FrameGraph)
    (rfrom rto : FrameGraphResource) (r1 : FrameGraphResource)
    (hm : fg.moveResource rfrom rto = some (fg1, r1))
    (ha : fg.aliases = []) (p : Nat) :
    ((fg1.resolveAliases.initRefCounts).passNodes.getD p default).refCount +
      ((fg.passNodes.getD p default).writes.filter
        (fun w => decide (w < fg.resourceNodes.length) &&
          ((fg.resourceNodes.getD w default).resource ==
            (fg.resourceNodes.getD rfrom.index default).resource))).length =
    (fg.passNodes.getD p default).writes.length +
      (if (fg.passNodes.getD p default).hasSideEffect then 1 else 0) := by
  unfold FrameGraph.moveResource at hm
  split at hm
  case isFalse => cases hm
  case isTrue hv =>
  cases hm
  have hdisc : ∀ w, ({ fg with
      entries := modifyNth
        (fun en => { en with version :=
          (fg.entries.getD
            (fg.resourceNodes.getD rfrom.index default).resource
            default).version + 1 })
        (fg.resourceNodes.getD rfrom.index default).resource fg.entries,
      resourceNodes := fg.resourceNodes ++
        [{ resource := (fg.resourceNodes.getD rfrom.index default).resource,
           version := (fg.entries.getD
             (fg.resourceNodes.getD rfrom.index default).resource
             default).version + 1,
           readerCount := 0, writer := none }],
      aliases := fg.aliases ++
        [{ fromNode := rfrom.index, toNode := rto.index,
           disconnects := (List.range fg.resourceNodes.length).filter
             (fun j => (fg.resourceNodes.getD j default).resource ==
               (fg.resourceNodes.getD rfrom.index default).resource) }] } :
      FrameGraph).isDisconnected w =
      (decide (w < fg.resourceNodes.length) &&
        ((fg.resourceNodes.getD w default).resource ==
          (fg.resourceNodes.getD rfrom.index default).resource)) := by
    intro w
    unfold FrameGraph.isDisconnected
    dsimp only
    rw [ha]
    simp only [List.nil_append, List.any_cons, List.any_nil, Bool.or_false]
    exact contains_filter_range fg.resourceNodes.length _ w
  have hfun : (fun w => !({ fg with
      entries := modifyNth
        (fun en => { en with version :=
          (fg.entries.getD
            (fg.resourceNodes.getD rfrom.index default).resource
            default).version + 1 })
        (fg.resourceNodes.getD rfrom.index default).resource fg.entries,
      resourceNodes := fg.resourceNodes ++
        [{ resource := (fg.resourceNodes.getD rfrom.index default).resource,
           version := (fg.entries.getD
             (fg.resourceNodes.getD rfrom.index default).resource
             default).version + 1,
           readerCount := 0, writer := none }],
      aliases := fg.aliases ++
        [{ fromNode := rfrom.index, toNode := rto.index,
           disconnects := (List.range fg.resourceNodes.length).filter
             (fun j => (fg.resourceNodes.getD j default).resource ==
               (fg.resourceNodes.getD rfrom.index default).resource) }] } :
      FrameGraph).isDisconnected w) =
      (fun w => !(decide (w < fg.resourceNodes.length) &&
        ((fg.resourceNodes.getD w default).resource ==
          (fg.resourceNodes.getD rfrom.index default).resource))) :=
    funext fun w => by rw [hdisc w]
  rw [FrameGraph.initRefCounts_passNodes, FrameGraph.resolveAliases_passNodes]
  dsimp only
  rw [hfun]
  exact refcount_filter_balance fg.passNodes
    (fun w => decide (w < fg.resourceNodes.length) &&
      ((fg.resourceNodes.getD w default).resource ==
        (fg.resourceNodes.getD rfrom.index default).resource)) p

/-- Concrete graph for the C4 witness: pass 0 wrote node 1 on entry 0
(资源 `y`); entry 1 (node 2) is the move target. -/
def moveWriterBase : FrameGraph :=
  { passNodes :=
      [{ name := "B", reads := [], writes := [1], hasSideEffect := false,
         refCount := 0, exec := 0 }],
    resourceNodes :=
      [{ resource := 0, version := 0, readerCount := 0, writer := none },
       { resource := 0, version := 1, readerCount := 0, writer := some 0 },
       { resource := 1, version := 0, readerCount := 0, writer := none }],
    entries :=
      [{ name := "y", descriptor := 0, imported := false, version := 1,
         firstUse := none, lastUse := none },
       { name := "x", descriptor := 0, imported := false, version := 0,
         firstUse := none, lastUse := none }],
    aliases := [], presentRefs := [], events := [] }

/-- The C4 witness graph after `moveResource (from := y) (to := x)`. -/
def moveWriterRes : FrameGraph × FrameGraphResource :=
  (moveWriterBase.moveResource { index := 1, version := 1 }
    { index := 2, version := 0 }).getD default

/-- Witness for C4 at a concrete input: pass 0's single pre-move write to
`from`'s entry contributes zero to its refcount after alias resolution. -/
theorem claim_C4_witness :
    ((moveWriterRes.1.resolveAliases.initRefCounts).passNodes.getD 0
        default).refCount +
      ((moveWriterBase.passNodes.getD 0 default).writes.filter
        (fun w => decide (w < moveWriterBase.resourceNodes.length) &&
          ((moveWriterBase.resourceNodes.getD w default).resource ==
            (moveWriterBase.resourceNodes.getD
              ({ index := 1, version := 1 } :
                FrameGraphResource).index default).resource))).length =
    (moveWriterBase.passNodes.getD 0 default).writes.length +
      (if (moveWriterBase.passNodes.getD 0 default).hasSideEffect then 1
       else 0) :=
  claim_C4_disconnected_writes_contribute_zero moveWriterBase
    moveWriterRes.1 { index := 1, version := 1 } { index := 2, version := 0 }
    moveWriterRes.2 (by decide) (by decide) 0

/-! ### C6 — one backend create and one destroy per instantiated entry -/

theorem count_flatten {α : Type} [BEq α] (ls : List (List α)) (a : α) :
    ls.flatten.count a = (ls.map (List.count a)).sum := by
  induction ls with
  | nil => rfl
  | cons h t ih => simp [List.count_append, ih]

theorem sum_map_ite_zero (l : List Nat) (i0 : Nat) (hm : i0 ∉ l) :
    (l.map (fun i => if i = i0 then 1 else 0)).sum = 0 := by
  induction l with
  | nil => rfl
  | cons a as ih =>
    have ha : a ≠ i0 := fun h => hm (h ▸ List.mem_cons_self a as)
    have h1 := ih (fun h => hm (List.mem_cons_of_mem a h))
    simp only [List.map_cons, List.sum_cons, if_neg ha]
    omega

theorem sum_map_ite_one (l : List Nat) (i0 : Nat) (hn : l.Nodup)
    (hm : i0 ∈ l) : (l.map (fun i => if i = i0 then 1 else 0)).sum = 1 := by
  induction l with
  | nil => cases hm
  | cons a as ih =>
    rcases List.mem_cons.mp hm with h | h
    · subst h
      have hnot : i0 ∉ as := (List.nodup_cons.mp hn).1
      have hz := sum_map_ite_zero as i0 hnot
      simp [hz]
    · have ha : a ≠ i0 := fun hc => (List.nodup_cons.mp hn).1 (hc ▸ h)
      have h1 := ih (List.nodup_cons.mp hn).2 h
      simp only [List.map_cons, List.sum_cons, if_neg ha]
      omega

namespace FrameGraph

theorem count_passEvents_create (fg : FrameGraph) (i e : Nat) :
    (fg.passEvents i).count (FgEvent.createResource e) =
      (fg.instantiated i).count e := by
  unfold passEvents
  rw [List.count_append, List.count_append]
  have h1 : ((fg.instantiated i).map FgEvent.createResource).count
      (FgEvent.createResource e) = (fg.instantiated i).count e :=
    List.count_map_of_injective _ _ (fun a b hab => by cases hab; rfl) e
  have h2 : ([FgEvent.executeRun i] : List FgEvent).count
      (FgEvent.createResource e) = 0 :=
    List.count_eq_zero_of_not_mem (by simp)
  have h3 : ((fg.destroyed i).map FgEvent.destroyResource).count
      (FgEvent.createResource e) = 0 :=
    List.count_eq_zero_of_not_mem (by simp)
  omega

theorem count_passEvents_destroy (fg : FrameGraph) (i e : Nat) :
    (fg.passEvents i).count (FgEvent.destroyResource e) =
      (fg.destroyed i).count e := by
  unfold passEvents
  rw [List.count_append, List.count_append]
  have h1 : ((fg.destroyed i).map FgEvent.destroyResource).count
      (FgEvent.destroyResource e) = (fg.destroyed i).count e :=
    List.count_map_of_injective _ _ (fun a b hab => by cases hab; rfl) e
  have h2 : ([FgEvent.executeRun i] : List FgEvent).count
      (FgEvent.destroyResource e) = 0 :=
    List.count_eq_zero_of_not_mem (by simp)
  have h3 : ((fg.instantiated i).map FgEvent.createResource).count
      (FgEvent.destroyResource e) = 0 :=
    List.count_eq_zero_of_not_mem (by simp)
  omega

theorem mem_instantiated (fg : FrameGraph) (i e : Nat) :
    e ∈ fg.instantiated i ↔
      e < fg.entries.length ∧
        (fg.entries.getD e default).imported = false ∧
        (fg.entries.getD e default).firstUse = some i := by
  unfold instantiated
  simp [List.mem_filter, List.mem_range, Bool.and_eq_true, and_assoc]

theorem mem_destroyed (fg : FrameGraph) (i e : Nat) :
    e ∈ fg.destroyed i ↔
      e < fg.entries.length ∧
        (fg.entries.getD e default).imported = false ∧
        (fg.entries.getD e default).lastUse = some i := by
  unfold destroyed
  simp [List.mem_filter, List.mem_range, Bool.and_eq_true, and_assoc]

theorem count_instantiated (fg : FrameGraph) (i e : Nat) :
    (fg.instantiated i).count e =
      if e < fg.entries.length ∧
          (fg.entries.getD e default).imported = false ∧
          (fg.entries.getD e default).firstUse = some i then 1 else 0 := by
  by_cases h : e < fg.entries.length ∧
      (fg.entries.getD e default).imported = false ∧
      (fg.entries.getD e default).firstUse = some i
  · rw [if_pos h]
    exact List.count_eq_one_of_mem ((List.nodup_range _).filter _)
      ((mem_instantiated fg i e).mpr h)
  · rw [if_neg h]
    exact List.count_eq_zero_of_not_mem
      (fun hm => h ((mem_instantiated fg i e).mp hm))

theorem count_destroyed (fg : FrameGraph) (i e : Nat) :
    (fg.destroyed i).count e =
      if e < fg.entries.length ∧
          (fg.entries.getD e default).imported = false ∧
          (fg.entries.getD e default).lastUse = some i then 1 else 0 := by
  by_cases h : e < fg.entries.length ∧
      (fg.entries.getD e default).imported = false ∧
      (fg.entries.getD e default).lastUse = some i
  · rw [if_pos h]
    exact List.count_eq_one_of_mem ((List.nodup_range _).filter _)
      ((mem_destroyed fg i e).mpr h)
  · rw [if_neg h]
    exact List.count_eq_zero_of_not_mem
      (fun hm => h ((mem_destroyed fg i e).mp hm))

theorem count_executeEvents_create (fg : FrameGraph) (e : Nat) :
    fg.executeEvents.count (FgEvent.createResource e) =
      (fg.survivors.map (fun i => (fg.instantiated i).count e)).sum := by
  unfold executeEvents
  rw [count_flatten, List.map_map]
  have hfun : (List.count (FgEvent.createResource e)) ∘ fg.passEvents =
      fun i => (fg.instantiated i).count e :=
    funext (fun i => count_passEvents_create fg i e)
  rw [hfun]

theorem count_executeEvents_destroy (fg : FrameGraph) (e : Nat) :
    fg.executeEvents.count (FgEvent.destroyResource e) =
      (fg.survivors.map (fun i => (fg.destroyed i).count e)).sum := by
  unfold executeEvents
  rw [count_flatten, List.map_map]
  have hfun : (List.count (FgEvent.destroyResource e)) ∘ fg.passEvents =
      fun i => (fg.destroyed i).count e :=
    funext (fun i => count_passEvents_destroy fg i e)
  rw [hfun]

theorem computeLifetimes_entries (fg : FrameGraph) (e : Nat) :
    fg.computeLifetimes.entries[e]? = (fg.entries[e]?).map
      (fun ent => { ent with
        firstUse := (fg.survivors.filter (fun i => fg.usesEntry i e)).head?,
        lastUse :=
          (fg.survivors.filter (fun i => fg.usesEntry i e)).getLast? }) := by
  unfold computeLifetimes
  dsimp only
  rw [getElem?_mapIdxGo]
  cases fg.entries[e]? with
  | none => rfl
  | some ent => simp [Nat.zero_add]

end FrameGraph

/-- C6: for every non-imported resource entry that `execute`
(spec §4.5) instantiates — an entry assigned a first-use pass by
`compile` — the backend receives exactly one create call and exactly one
destroy call during that execute, so after execute every instantiated
resource has been destroyed. -/
theorem claim_C6_execute_create_destroy_once (fg0 : FrameGraph) (e i : Nat)
    (he : e < (fg0.compile).entries.length)
    (himp : ((fg0.compile).entries.getD e default).imported = false)
    (hfu : ((fg0.compile).entries.getD e default).firstUse = some i) :
    ((fg0.compile).executeEvents.count (FgEvent.createResource e) = 1) ∧
    ((fg0.compile).executeEvents.count (FgEvent.destroyResource e) = 1) := by
  have hlen : (fg0.compile).entries.length =
      (fg0.resolveAliases.initRefCounts.cull).entries.length := by
    show (mapIdxGo _ 0 _).length = _
    exact length_mapIdxGo _ 0 _
  have hes : e < (fg0.resolveAliases.initRefCounts.cull).entries.length := by
    omega
  obtain ⟨ent, hent⟩ : ∃ ent,
      (fg0.resolveAliases.initRefCounts.cull).entries[e]? = some ent :=
    ⟨_, List.getElem?_eq_getElem hes⟩
  have hgl := FrameGraph.computeLifetimes_entries
    (fg0.resolveAliases.initRefCounts.cull) e
  rw [hent] at hgl
  have hgd : (fg0.compile).entries.getD e default = { ent with
      firstUse := ((fg0.resolveAliases.initRefCounts.cull).survivors.filter
        (fun i => (fg0.resolveAliases.initRefCounts.cull).usesEntry i e)).head?,
      lastUse := ((fg0.resolveAliases.initRefCounts.cull).survivors.filter
        (fun i =>
          (fg0.resolveAliases.initRefCounts.cull).usesEntry i e)).getLast? } :=
    getD_of_getElem? default hgl
  set users := ((fg0.resolveAliases.initRefCounts.cull).survivors.filter
    (fun i => (fg0.resolveAliases.initRefCounts.cull).usesEntry i e))
    with husers
  have hfu' : users.head? = some i := by
    rw [hgd] at hfu
    exact hfu
  have hne : users ≠ [] := by
    intro hc
    rw [hc] at hfu'
    cases hfu'
  obtain ⟨j, hj⟩ : ∃ j, users.getLast? = some j := by
    cases hg : users.getLast? with
    | some j => exact ⟨j, rfl⟩
    | none => exact absurd (List.getLast?_eq_none_iff.mp hg) hne
  have hlu : ((fg0.compile).entries.getD e default).lastUse = some j := by
    rw [hgd]
    exact hj
  have hiu : i ∈ users := List.mem_of_mem_head? (by rw [hfu']; rfl)
  have hju : j ∈ users := List.mem_of_getLast?_eq_some hj
  have hisurv : i ∈ (fg0.compile).survivors :=
    (List.mem_filter.mp hiu).1
  have hjsurv : j ∈ (fg0.compile).survivors :=
    (List.mem_filter.mp hju).1
  have hnodup : ((fg0.compile).survivors).Nodup :=
    (List.nodup_range _).filter _
  constructor
  · rw [FrameGraph.count_executeEvents_create]
    have hfn : (fun i' => ((fg0.compile).instantiated i').count e) =
        (fun i' => if i' = i then 1 else 0) := by
      funext i'
      rw [FrameGraph.count_instantiated]
      refine if_congr ?_ rfl rfl
      constructor
      · rintro ⟨-, -, hfi⟩
        rw [hfu] at hfi
        exact (Option.some_inj.mp hfi).symm
      · rintro rfl
        exact ⟨he, himp, hfu⟩
    rw [hfn]
    exact sum_map_ite_one _ i hnodup hisurv
  · rw [FrameGraph.count_executeEvents_destroy]
    have hfn : (fun i' => ((fg0.compile).destroyed i').count e) =
        (fun i' => if i' = j then 1 else 0) := by
      funext i'
      rw [FrameGraph.count_destroyed]
      refine if_congr ?_ rfl rfl
      constructor
      · rintro ⟨-, -, hfi⟩
        rw [hlu] at hfi
        exact (Option.some_inj.mp hfi).symm
      · rintro rfl
        exact ⟨he, himp, hlu⟩
    rw [hfn]
    exact sum_map_ite_one _ j hnodup hjsurv

/-- Concrete two-pass graph for the C6 witness: pass 0 writes entry 0
(node 1), pass 1 reads it and is side-effecting. -/
def executeExample : FrameGraph :=
  { passNodes :=
      [{ name := "A", reads := [], writes := [1], hasSideEffect := false,
         refCount := 0, exec := 0 },
       { name := "B", reads := [1], writes := [], hasSideEffect := true,
         refCount := 0, exec := 0 }],
    resourceNodes :=
      [{ resource := 0, version := 0, readerCount := 0, writer := none },
       { resource := 0, version := 1, readerCount := 1, writer := some 0 }],
    entries :=
      [{ name := "x", descriptor := 0, imported := false, version := 1,
         firstUse := none, lastUse := none }],
    aliases := [], presentRefs := [], events := [] }

/-- Witness for C6 at a concrete input: entry 0 of `executeExample` is
created exactly once and destroyed exactly once by the execute phase. -/
theorem claim_C6_witness :
    ((executeExample.compile).executeEvents.count
      (FgEvent.createResource 0) = 1) ∧
    ((executeExample.compile).executeEvents.count
      (FgEvent.destroyResource 0) = 1) :=
  claim_C6_execute_create_destroy_once executeExample 0 0 (by decide)
    (by decide) (by decide)

/-! ### C5 — side-effecting passes survive cull: helper lemmas -/

theorem getD_map_default {α : Type} [Inhabited α] (f : α → α)
    (hf : f default = default) (l : List α) (i : Nat) :
    ((l.map f).getD i default) = f (l.getD i default) := by
  rw [List.getD_eq_getElem?_getD, List.getD_eq_getElem?_getD,
    List.getElem?_map]
  cases l[i]? with
  | none => simp [hf]
  | some a => rfl

theorem getD_mapIdxGo_default {α : Type} [Inhabited α] (f : Nat → α → α)
    (hf : ∀ k, f k default = default) (k i : Nat) (l : List α) :
    ((mapIdxGo f k l).getD i default) = f (k + i) (l.getD i default) := by
  rw [List.getD_eq_getElem?_getD, List.getD_eq_getElem?_getD,
    getElem?_mapIdxGo]
  cases l[i]? with
  | none => simp [hf]
  | some a => rfl

theorem getD_modifyNth_pres {α β : Type} [Inhabited α] (f : α → α)
    (g : α → β) (hg : ∀ x, g (f x) = g x) (p q : Nat) (l : List α) :
    g ((modifyNth f p l).getD q default) = g (l.getD q default) := by
  by_cases h : q = p
  · subst h
    rw [List.getD_eq_getElem?_getD, List.getD_eq_getElem?_getD,
      getElem?_modifyNth_self]
    cases l[q]? with
    | none => rfl
    | some a => exact hg a
  · rw [List.getD_eq_getElem?_getD, List.getD_eq_getElem?_getD,
      getElem?_modifyNth_ne _ _ _ _ h]

theorem getD_modifyNth_self_eq {α : Type} [Inhabited α] (f : α → α)
    (p : Nat) (l : List α) (hp : p < l.length) :
    (modifyNth f p l).getD p default = f (l.getD p default) := by
  rw [List.getD_eq_getElem?_getD, List.getD_eq_getElem?_getD,
    getElem?_modifyNth_self, List.getElem?_eq_getElem hp]
  rfl

theorem length_filter_notin_cons (l : List Nat) (n : Nat)
    (processed : List Nat) (hl : l.Nodup) (hn : n ∈ l)
    (hnp : n ∉ processed) :
    (l.filter (fun w => decide (w ∉ n :: processed))).length + 1 =
      (l.filter (fun w => decide (w ∉ processed))).length := by
  induction l with
  | nil => cases hn
  | cons a as ih =>
    have hnodup := List.nodup_cons.mp hl
    rw [List.filter_cons, List.filter_cons]
    by_cases ha : a = n
    · subst ha
      have h1 : decide (a ∉ a :: processed) = false := by simp
      have h2 : decide (a ∉ processed) = true := by simp [hnp]
      rw [h1, h2]
      have hcongr : as.filter (fun w => decide (w ∉ a :: processed)) =
          as.filter (fun w => decide (w ∉ processed)) := by
        refine List.filter_congr ?_
        intro w hw
        have hwa : w ≠ a := fun hc => hnodup.1 (hc ▸ hw)
        simp [List.mem_cons, hwa]
      rw [hcongr]
      simp
    · have hn' : n ∈ as := by
        rcases List.mem_cons.mp hn with h | h
        · exact absurd h.symm ha
        · exact h
      have hpred : decide (a ∉ n :: processed) = decide (a ∉ processed) := by
        simp [List.mem_cons, ha]
      rw [hpred]
      have hih := ih hnodup.2 hn'
      cases hb : decide (a ∉ processed)
      · rw [if_neg Bool.false_ne_true, if_neg Bool.false_ne_true]
        exact hih
      · rw [if_pos rfl, if_pos rfl]
        simp only [List.length_cons]
        omega

namespace FrameGraph

/-- Behaviour of `decReads` needed by the cull invariant: writers are
untouched, zero refcounts stay zero, and the pushed nodes are exactly
fresh nodes whose refcount reached zero. -/
theorem decReads_inv (rs : List Nat) (ns : List ResourceNode)
    (ps : List Nat)
    (hps0 : ∀ m ∈ ps, (ns.getD m default).readerCount = 0)
    (hnodup : ps.Nodup) :
    (∀ i, ((decReads rs ns ps).1.getD i default).writer =
      (ns.getD i default).writer) ∧
    (∀ i, (ns.getD i default).readerCount = 0 →
      ((decReads rs ns ps).1.getD i default).readerCount = 0) ∧
    (decReads rs ns ps).2.Nodup ∧
    (∀ m ∈ (decReads rs ns ps).2,
      ((decReads rs ns ps).1.getD m default).readerCount = 0) ∧
    (∀ m ∈ (decReads rs ns ps).2,
      m ∈ ps ∨ (ns.getD m default).readerCount ≠ 0) := by
  induction rs generalizing ns ps with
  | nil =>
    exact ⟨fun i => rfl, fun i h => h, hnodup, fun m hm => hps0 m hm,
      fun m hm => Or.inl hm⟩
  | cons r rs ih =>
    have hwr : ∀ i, ((modifyNth
        (fun m => { m with readerCount := m.readerCount - 1 }) r ns).getD i
          default).writer = (ns.getD i default).writer :=
      fun i => getD_modifyNth_pres
        (fun m => { m with readerCount := m.readerCount - 1 })
        (fun x => x.writer) (fun x => rfl) r i ns
    have hrc0 : ∀ i, (ns.getD i default).readerCount = 0 →
        ((modifyNth (fun m => { m with readerCount := m.readerCount - 1 })
          r ns).getD i default).readerCount = 0 := by
      intro i h
      by_cases hir : i = r
      · subst hir
        by_cases hlt : i < ns.length
        · rw [getD_modifyNth_self_eq _ _ _ hlt]
          dsimp only
          rw [h]
        · have heq : (modifyNth
              (fun m => { m with readerCount := m.readerCount - 1 }) i
              ns).getD i default = ns.getD i default := by
            rw [List.getD_eq_getElem?_getD, List.getD_eq_getElem?_getD]
            have h1 : (modifyNth
                (fun m => { m with readerCount := m.readerCount - 1 }) i
                ns)[i]? = none := by
              refine List.getElem?_eq_none ?_
              rw [length_modifyNth]
              omega
            have h2 : ns[i]? = none := List.getElem?_eq_none (by omega)
            rw [h1, h2]
          rw [heq]
          exact h
      · have heq : (modifyNth
            (fun m => { m with readerCount := m.readerCount - 1 }) r
            ns).getD i default = ns.getD i default := by
          rw [List.getD_eq_getElem?_getD, List.getD_eq_getElem?_getD,
            getElem?_modifyNth_ne _ _ _ _ hir]
        rw [heq]
        exact h
    simp only [decReads]
    by_cases hcur : (((ns.getD r default).readerCount == 1) = true)
    · rw [if_pos hcur]
      have hpost : ((modifyNth
          (fun m => { m with readerCount := m.readerCount - 1 }) r
          ns).getD r default).readerCount = 0 := by
        by_cases hlt : r < ns.length
        · rw [getD_modifyNth_self_eq _ _ _ hlt]
          dsimp only
          rw [beq_iff_eq.mp hcur]
        · have h0 : (ns.getD r default).readerCount = 0 := by
            rw [List.getD_eq_getElem?_getD,
              List.getElem?_eq_none (by omega : ns.length ≤ r)]
            rfl
          rw [beq_iff_eq.mp hcur] at h0
          cases h0
      have hps0' : ∀ m ∈ ps ++ [r], ((modifyNth
          (fun m => { m with readerCount := m.readerCount - 1 }) r
          ns).getD m default).readerCount = 0 := by
        intro m hm
        rcases List.mem_append.mp hm with h | h
        · exact hrc0 m (hps0 m h)
        · have hm' : m = r := by simpa using h
          subst hm'
          exact hpost
      have hnodup' : (ps ++ [r]).Nodup := by
        refine List.Nodup.append hnodup (List.nodup_singleton r) ?_
        intro a hap har
        have ha' : a = r := by simpa using har
        subst ha'
        have h0 := hps0 a hap
        rw [beq_iff_eq.mp hcur] at h0
        cases h0
      have hrec := ih (modifyNth
        (fun m => { m with readerCount := m.readerCount - 1 }) r ns)
        (ps ++ [r]) hps0' hnodup'
      refine ⟨fun i => (hrec.1 i).trans (hwr i),
        fun i h => hrec.2.1 i (hrc0 i h), hrec.2.2.1, hrec.2.2.2.1, ?_⟩
      intro m hm
      rcases hrec.2.2.2.2 m hm with h | h
      · rcases List.mem_append.mp h with h' | h'
        · exact Or.inl h'
        · have hm' : m = r := by simpa using h'
          subst hm'
          right
          rw [beq_iff_eq.mp hcur]
          omega
      · right
        intro hc
        exact h (hrc0 m hc)
    · rw [if_neg hcur]
      have hps0' : ∀ m ∈ ps, ((modifyNth
          (fun m => { m with readerCount := m.readerCount - 1 }) r
          ns).getD m default).readerCount = 0 :=
        fun m hm => hrc0 m (hps0 m hm)
      have hrec := ih (modifyNth
        (fun m => { m with readerCount := m.readerCount - 1 }) r ns)
        ps hps0' hnodup
      refine ⟨fun i => (hrec.1 i).trans (hwr i),
        fun i h => hrec.2.1 i (hrc0 i h), hrec.2.2.1, hrec.2.2.2.1, ?_⟩
      intro m hm
      rcases hrec.2.2.2.2 m hm with h | h
      · exact Or.inl h
      · right
        intro hc
        exact h (hrc0 m hc)

end FrameGraph

theorem getD_map_pres {α β : Type} [Inhabited α] (f : α → α) (g : α → β)
    (hg : ∀ x, g (f x) = g x) (l : List α) (i : Nat) :
    g ((l.map f).getD i default) = g (l.getD i default) := by
  rw [List.getD_eq_getElem?_getD, List.getD_eq_getElem?_getD,
    List.getElem?_map]
  cases l[i]? with
  | none => rfl
  | some a => exact hg a

theorem getD_mapIdxGo_pres {α β : Type} [Inhabited α] (f : Nat → α → α)
    (g : α → β) (hg : ∀ k x, g (f k x) = g x) (k : Nat) (l : List α)
    (i : Nat) :
    g ((mapIdxGo f k l).getD i default) = g (l.getD i default) := by
  rw [List.getD_eq_getElem?_getD, List.getD_eq_getElem?_getD,
    getElem?_mapIdxGo]
  cases l[i]? with
  | none => rfl
  | some a => exact hg (k + i) a

theorem getD_modifyNth_ne_eq {α : Type} [Inhabited α] (f : α → α)
    (p q : Nat) (l : List α) (h : q ≠ p) :
    (modifyNth f p l).getD q default = l.getD q default := by
  rw [List.getD_eq_getElem?_getD, List.getD_eq_getElem?_getD,
    getElem?_modifyNth_ne _ _ _ _ h]

theorem length_filter_mono (l : List Nat) (P Q : Nat → Bool)
    (h : ∀ w, P w = true → Q w = true) :
    (l.filter P).length ≤ (l.filter Q).length := by
  induction l with
  | nil => exact Nat.le_refl 0
  | cons a as ih =>
    rw [List.filter_cons, List.filter_cons]
    by_cases hP : P a = true
    · rw [if_pos hP, if_pos (h a hP)]
      simpa using ih
    · rw [if_neg hP]
      cases hQ : Q a
      · rw [if_neg Bool.false_ne_true]
        exact ih
      · rw [if_pos rfl]
        exact Nat.le_trans ih (by simp)

namespace FrameGraph

/-- The invariant maintained by cull propagation (spec §4.4 step 3):
stack members have zero refcount and are fresh; every node's writer link
is mirrored in that pass's (duplicate-free) write list; and each pass's
refcount is at least its side-effect bit plus its writes not yet
processed by the worklist. -/
def CullInv (s : FrameGraph) (stack processed : List Nat) : Prop :=
  (∀ n ∈ stack, (s.resourceNodes.getD n default).readerCount = 0) ∧
  stack.Nodup ∧
  (∀ n ∈ stack, n ∉ processed) ∧
  (∀ n ∈ processed, (s.resourceNodes.getD n default).readerCount = 0) ∧
  (∀ i q, (s.resourceNodes.getD i default).writer = some q →
    i ∈ (s.passNodes.getD q default).writes) ∧
  (∀ q, (s.passNodes.getD q default).writes.Nodup) ∧
  (∀ q, (if (s.passNodes.getD q default).hasSideEffect then 1 else 0) +
      ((s.passNodes.getD q default).writes.filter
        (fun w => decide (w ∉ processed))).length ≤
    (s.passNodes.getD q default).refCount)

/-- One cull pop preserves the invariant (with the popped node marked
processed) and does not change any pass's side-effect flag, write list or
reads. -/
theorem cullStep_inv (s : FrameGraph) (n : Nat) (rest processed : List Nat)
    (hinv : CullInv s (n :: rest) processed) :
    CullInv (cullStep s n).1 ((cullStep s n).2 ++ rest) (n :: processed) ∧
    (∀ q, ((cullStep s n).1.passNodes.getD q default).hasSideEffect =
      (s.passNodes.getD q default).hasSideEffect) := by
  obtain ⟨hA, hB, hE, hF, hG2, hG1, hJ⟩ := hinv
  have hBn := List.nodup_cons.mp hB
  have hrcn : (s.resourceNodes.getD n default).readerCount = 0 :=
    hA n (List.mem_cons_self n rest)
  have hnp : n ∉ processed := hE n (List.mem_cons_self n rest)
  cases hw : (s.resourceNodes.getD n default).writer with
  | none =>
    have hstep : cullStep s n = (s, []) := by
      unfold cullStep
      rw [hw]
    rw [hstep]
    simp only [List.nil_append]
    refine And.intro ?_ (by intro q; first | rfl | trivial)
    unfold CullInv
    refine ⟨fun m hm => hA m (List.mem_cons_of_mem n hm), hBn.2,
      ?_, ?_, hG2, hG1, ?_⟩
    · intro m hm
      intro hc
      rcases List.mem_cons.mp hc with h | h
      · exact hBn.1 (h ▸ hm)
      · exact hE m (List.mem_cons_of_mem n hm) h
    · intro m hm
      rcases List.mem_cons.mp hm with h | h
      · exact h ▸ hrcn
      · exact hF m h
    · intro q
      refine Nat.le_trans (Nat.add_le_add_left ?_ _) (hJ q)
      refine length_filter_mono _ _ _ ?_
      intro w hwi
      simp only [decide_eq_true_eq] at hwi ⊢
      intro hc
      exact hwi (List.mem_cons_of_mem n hc)
  | some p =>
    have hnwr : n ∈ (s.passNodes.getD p default).writes := hG2 n p hw
    -- facts about the refcount bookkeeping at pass p
    have hlenJ := hJ p
    have hsplit := length_filter_notin_cons
      (s.passNodes.getD p default).writes n processed (hG1 p) hnwr hnp
    -- the two cull branches only differ in whether node refcounts drop
    by_cases hb : ((((s.passNodes.getD p default).refCount - 1) == 0) &&
        !(s.passNodes.getD p default).hasSideEffect) = true
    · have hstep : cullStep s n =
          ({ s with
              passNodes := modifyNth (fun q => { q with refCount :=
                (s.passNodes.getD p default).refCount - 1 }) p s.passNodes,
              resourceNodes := (decReads (s.passNodes.getD p default).reads
                s.resourceNodes []).1 },
            (decReads (s.passNodes.getD p default).reads
              s.resourceNodes []).2) := by
        unfold cullStep
        rw [hw]
        simp only
        rw [if_pos hb]
      obtain ⟨hd1, hd2, hd3, hd4, hd5⟩ := decReads_inv
        (s.passNodes.getD p default).reads s.resourceNodes []
        (by intro m hm; cases hm) List.nodup_nil
      rw [hstep]
      have hwrites : ∀ q, ((modifyNth (fun q => { q with refCount :=
          (s.passNodes.getD p default).refCount - 1 }) p
            s.passNodes).getD q default).writes =
          (s.passNodes.getD q default).writes :=
        fun q => getD_modifyNth_pres
          (fun q : PassNode => { q with refCount :=
            (s.passNodes.getD p default).refCount - 1 })
          (fun x => x.writes) (fun x => rfl) p q s.passNodes
      have hse : ∀ q, ((modifyNth (fun q => { q with refCount :=
          (s.passNodes.getD p default).refCount - 1 }) p
            s.passNodes).getD q default).hasSideEffect =
          (s.passNodes.getD q default).hasSideEffect :=
        fun q => getD_modifyNth_pres
          (fun q : PassNode => { q with refCount :=
            (s.passNodes.getD p default).refCount - 1 })
          (fun x => x.hasSideEffect) (fun x => rfl) p q s.passNodes
      have hrcp : ((modifyNth (fun q => { q with refCount :=
          (s.passNodes.getD p default).refCount - 1 }) p
            s.passNodes).getD p default).refCount =
          (s.passNodes.getD p default).refCount - 1 := by
        by_cases hp : p < s.passNodes.length
        · rw [getD_modifyNth_self_eq _ _ _ hp]
        · rw [List.getD_eq_getElem?_getD,
            List.getElem?_eq_none (by rw [length_modifyNth]; omega),
            List.getD_eq_getElem?_getD,
            List.getElem?_eq_none (by omega : s.passNodes.length ≤ p)]
          rfl
      have hrcq : ∀ q, q ≠ p → ((modifyNth (fun q => { q with refCount :=
          (s.passNodes.getD p default).refCount - 1 }) p
            s.passNodes).getD q default).refCount =
          (s.passNodes.getD q default).refCount :=
        fun q hq => by rw [getD_modifyNth_ne_eq _ _ _ _ hq]
      refine ⟨⟨?_, ?_, ?_, ?_, ?_, ?_, ?_⟩, fun q => hse q⟩
      · -- stack members have refcount zero
        intro m hm
        rcases List.mem_append.mp hm with h | h
        · exact hd4 m h
        · exact hd2 m (hA m (List.mem_cons_of_mem n h))
      · -- stack nodup
        refine List.Nodup.append hd3 hBn.2 ?_
        intro a ha hb'
        rcases hd5 a ha with h | h
        · cases h
        · exact h (hA a (List.mem_cons_of_mem n hb'))
      · -- stack fresh
        intro m hm hc
        rcases List.mem_append.mp hm with h | h
        · rcases hd5 m h with h' | h'
          · cases h'
          · rcases List.mem_cons.mp hc with h'' | h''
            · exact h' (h'' ▸ hrcn)
            · exact h' (hF m h'')
        · rcases List.mem_cons.mp hc with h'' | h''
          · exact hBn.1 (h'' ▸ h)
          · exact hE m (List.mem_cons_of_mem n h) h''
      · -- processed nodes have refcount zero
        intro m hm
        rcases List.mem_cons.mp hm with h | h
        · exact h ▸ hd2 n hrcn
        · exact hd2 m (hF m h)
      · -- writer links mirrored in write lists
        intro i q hwi
        rw [hd1 i] at hwi
        rw [hwrites q]
        exact hG2 i q hwi
      · -- write lists duplicate-free
        intro q
        rw [hwrites q]
        exact hG1 q
      · -- refcount lower bound
        intro q
        rw [hwrites q, hse q]
        by_cases hq : q = p
        · subst hq
          rw [hrcp]
          have hone : (if (true = true) then (1 : Nat) else 0) = 1 := rfl
          have hzero : (if (false = true) then (1 : Nat) else 0) = 0 := rfl
          by_cases hsep : (s.passNodes.getD q default).hasSideEffect = true
          · rw [hsep] at hlenJ ⊢
            rw [hone] at hlenJ ⊢
            omega
          · rw [Bool.not_eq_true] at hsep
            rw [hsep] at hlenJ ⊢
            rw [hzero] at hlenJ ⊢
            omega
        · rw [hrcq q hq]
          refine Nat.le_trans (Nat.add_le_add_left ?_ _) (hJ q)
          refine length_filter_mono _ _ _ ?_
          intro w hwi
          simp only [decide_eq_true_eq] at hwi ⊢
          intro hc
          exact hwi (List.mem_cons_of_mem n hc)
    · have hstep : cullStep s n =
          ({ s with
              passNodes := modifyNth (fun q => { q with refCount :=
                (s.passNodes.getD p default).refCount - 1 }) p s.passNodes },
            []) := by
        unfold cullStep
        rw [hw]
        simp only
        rw [if_neg hb]
      rw [hstep]
      simp only [List.nil_append]
      have hwrites : ∀ q, ((modifyNth (fun q => { q with refCount :=
          (s.passNodes.getD p default).refCount - 1 }) p
            s.passNodes).getD q default).writes =
          (s.passNodes.getD q default).writes :=
        fun q => getD_modifyNth_pres
          (fun q : PassNode => { q with refCount :=
            (s.passNodes.getD p default).refCount - 1 })
          (fun x => x.writes) (fun x => rfl) p q s.passNodes
      have hse : ∀ q, ((modifyNth (fun q => { q with refCount :=
          (s.passNodes.getD p default).refCount - 1 }) p
            s.passNodes).getD q default).hasSideEffect =
          (s.passNodes.getD q default).hasSideEffect :=
        fun q => getD_modifyNth_pres
          (fun q : PassNode => { q with refCount :=
            (s.passNodes.getD p default).refCount - 1 })
          (fun x => x.hasSideEffect) (fun x => rfl) p q s.passNodes
      have hrcp : ((modifyNth (fun q => { q with refCount :=
          (s.passNodes.getD p default).refCount - 1 }) p
            s.passNodes).getD p default).refCount =
          (s.passNodes.getD p default).refCount - 1 := by
        by_cases hp : p < s.passNodes.length
        · rw [getD_modifyNth_self_eq _ _ _ hp]
        · rw [List.getD_eq_getElem?_getD,
            List.getElem?_eq_none (by rw [length_modifyNth]; omega),
            List.getD_eq_getElem?_getD,
            List.getElem?_eq_none (by omega : s.passNodes.length ≤ p)]
          rfl
      have hrcq : ∀ q, q ≠ p → ((modifyNth (fun q => { q with refCount :=
          (s.passNodes.getD p default).refCount - 1 }) p
            s.passNodes).getD q default).refCount =
          (s.passNodes.getD q default).refCount :=
        fun q hq => by rw [getD_modifyNth_ne_eq _ _ _ _ hq]
      refine ⟨⟨fun m hm => hA m (List.mem_cons_of_mem n hm), hBn.2,
        ?_, ?_, fun i q hwi => by rw [hwrites q]; exact hG2 i q hwi,
        fun q => by rw [hwrites q]; exact hG1 q, ?_⟩, fun q => hse q⟩
      · intro m hm hc
        rcases List.mem_cons.mp hc with h | h
        · exact hBn.1 (h ▸ hm)
        · exact hE m (List.mem_cons_of_mem n hm) h
      · intro m hm
        rcases List.mem_cons.mp hm with h | h
        · exact h ▸ hrcn
        · exact hF m h
      · intro q
        rw [hwrites q, hse q]
        by_cases hq : q = p
        · subst hq
          rw [hrcp]
          have hone : (if (true = true) then (1 : Nat) else 0) = 1 := rfl
          have hzero : (if (false = true) then (1 : Nat) else 0) = 0 := rfl
          by_cases hsep : (s.passNodes.getD q default).hasSideEffect = true
          · rw [hsep] at hlenJ ⊢
            rw [hone] at hlenJ ⊢
            omega
          · rw [Bool.not_eq_true] at hsep
            rw [hsep] at hlenJ ⊢
            rw [hzero] at hlenJ ⊢
            omega
        · rw [hrcq q hq]
          refine Nat.le_trans (Nat.add_le_add_left ?_ _) (hJ q)
          refine length_filter_mono _ _ _ ?_
          intro w hwi
          simp only [decide_eq_true_eq] at hwi ⊢
          intro hc
          exact hwi (List.mem_cons_of_mem n hc)

end FrameGraph

namespace FrameGraph

/-- The cull worklist never drives a side-effecting pass's refcount to
zero. -/
theorem cullLoop_rc (fuel : Nat) :
    ∀ (s : FrameGraph) (stack processed : List Nat),
    CullInv s stack processed → ∀ q,
    (s.passNodes.getD q default).hasSideEffect = true →
    1 ≤ ((cullLoop fuel s stack).passNodes.getD q default).refCount := by
  induction fuel with
  | zero =>
    intro s stack processed hinv q hse
    have hJ := hinv.2.2.2.2.2.2 q
    rw [hse] at hJ
    have hone : (if (true = true) then (1 : Nat) else 0) = 1 := rfl
    rw [hone] at hJ
    have hred : cullLoop 0 s stack = s := rfl
    rw [hred]
    omega
  | succ fuel ih =>
    intro s stack processed hinv q hse
    cases stack with
    | nil =>
      have hJ := hinv.2.2.2.2.2.2 q
      rw [hse] at hJ
      have hone : (if (true = true) then (1 : Nat) else 0) = 1 := rfl
      rw [hone] at hJ
      have hred : cullLoop (fuel + 1) s [] = s := rfl
      rw [hred]
      omega
    | cons n rest =>
      have hstep := cullStep_inv s n rest processed hinv
      have hred : cullLoop (fuel + 1) s (n :: rest) =
          cullLoop fuel (cullStep s n).1 ((cullStep s n).2 ++ rest) := rfl
      rw [hred]
      exact ih (cullStep s n).1 ((cullStep s n).2 ++ rest) (n :: processed)
        hstep.1 q (by rw [hstep.2 q]; exact hse)

/-- Alias redirection never changes a node's writer link. -/
theorem redirect_fold_writer (as : List Alias) (ns : List ResourceNode)
    (i : Nat) :
    ((as.foldl redirectStep ns).getD i default).writer =
      (ns.getD i default).writer := by
  induction as generalizing ns with
  | nil => rfl
  | cons a as ih =>
    rw [List.foldl_cons, ih]
    show ((redirectStep ns a).getD i default).writer =
      (ns.getD i default).writer
    unfold redirectStep
    refine getD_map_pres _ (fun x => x.writer) ?_ ns i
    intro x
    by_cases h : (x.resource == (ns.getD a.toNode default).resource) = true
    · rw [if_pos h]
    · rw [if_neg h]

/-- The writer link after alias resolution: cleared on disconnected
nodes, untouched elsewhere. -/
theorem resolveAliases_writer (fg : FrameGraph) (i : Nat) :
    ((fg.resolveAliases.resourceNodes.getD i default)).writer =
      if fg.isDisconnected i then none
      else (fg.resourceNodes.getD i default).writer := by
  unfold resolveAliases
  dsimp only
  rw [getD_mapIdxGo_default _ ?hf 0 i]
  case hf =>
    intro k
    by_cases h : fg.isDisconnected k = true
    · rw [if_pos h]
      rfl
    · rw [if_neg h]
  rw [Nat.zero_add]
  by_cases h : fg.isDisconnected i = true
  · rw [if_pos h, if_pos h]
  · rw [if_neg h, if_neg h]
    exact redirect_fold_writer fg.aliases fg.resourceNodes i

theorem initRefCounts_nodes_writer (fg : FrameGraph) (i : Nat) :
    ((fg.initRefCounts.resourceNodes.getD i default)).writer =
      ((fg.resourceNodes.getD i default)).writer := by
  unfold initRefCounts
  dsimp only
  exact getD_mapIdxGo_pres
    (fun i n => { n with readerCount := fg.totalReads i })
    (fun x => x.writer) (fun k x => rfl) 0 fg.resourceNodes i

theorem resolveAliases_passD (fg : FrameGraph) (q : Nat) :
    fg.resolveAliases.passNodes.getD q default =
      { (fg.passNodes.getD q default) with
        writes := (fg.passNodes.getD q default).writes.filter
          (fun w => !fg.isDisconnected w) } := by
  rw [resolveAliases_passNodes]
  exact getD_map_default _ (by rfl) fg.passNodes q

theorem initRefCounts_passD (fg : FrameGraph) (q : Nat) :
    fg.initRefCounts.passNodes.getD q default =
      { (fg.passNodes.getD q default) with
        refCount := (fg.passNodes.getD q default).writes.length +
          (if (fg.passNodes.getD q default).hasSideEffect then 1 else 0) } := by
  rw [initRefCounts_passNodes]
  exact getD_map_default _ (by rfl) fg.passNodes q

theorem computeLifetimes_passNodes (fg : FrameGraph) :
    fg.computeLifetimes.passNodes = fg.passNodes := rfl

end FrameGraph

/-- C5: every pass marked side-effecting during setup — by
`Builder::sideEffect` (`FrameGraph.h:107-109`) or implicitly by writing an
imported resource (`FrameGraph.h:108`) — survives compile: cull
propagation never brings its reference count to zero, regardless of
whether any other pass reads its outputs (a culled pass is one whose
refcount is zero).  The second conjunct is the implicit marking: a write
to an imported resource sets the pass's side-effect flag.  The hypotheses
are the structural invariants of declaration-built graphs: write lists
are duplicate-free, and a node's writer link is mirrored in that pass's
write list. -/
theorem claim_C5_side_effecting_passes_survive (fg0 : FrameGraph)
    (hW1 : ∀ q, (fg0.passNodes.getD q default).writes.Nodup)
    (hW2 : ∀ i q, (fg0.resourceNodes.getD i default).writer = some q →
      i ∈ (fg0.passNodes.getD q default).writes) :
    (∀ q, (fg0.passNodes.getD q default).hasSideEffect = true →
      1 ≤ ((fg0.compile).passNodes.getD q default).refCount) ∧
    (∀ p r fg' r', p < fg0.passNodes.length →
      fg0.writeImpl p r = some (fg', r') →
      (fg0.entries.getD (fg0.resourceNodes.getD r.index default).resource
        default).imported = true →
      (fg'.passNodes.getD p default).hasSideEffect = true) := by
  constructor
  · intro q hse
    have hse2 : ((fg0.resolveAliases.initRefCounts).passNodes.getD q
        default).hasSideEffect = true := by
      rw [FrameGraph.initRefCounts_passD, FrameGraph.resolveAliases_passD]
      exact hse
    have hInv : FrameGraph.CullInv (fg0.resolveAliases.initRefCounts)
        ((List.range
          (fg0.resolveAliases.initRefCounts).resourceNodes.length).filter
          (fun i => ((fg0.resolveAliases.initRefCounts).resourceNodes.getD i
            default).readerCount == 0)) [] := by
      refine ⟨?_, (List.nodup_range _).filter _, ?_, ?_, ?_, ?_, ?_⟩
      · intro m hm
        have := (List.mem_filter.mp hm).2
        exact beq_iff_eq.mp this
      · intro m hm hc
        cases hc
      · intro m hm
        cases hm
      · intro i q' hwi
        rw [FrameGraph.initRefCounts_nodes_writer,
          FrameGraph.resolveAliases_writer] at hwi
        by_cases hd : fg0.isDisconnected i = true
        · rw [if_pos hd] at hwi
          cases hwi
        · rw [if_neg hd] at hwi
          rw [FrameGraph.initRefCounts_passD, FrameGraph.resolveAliases_passD]
          dsimp only
          rw [List.mem_filter]
          refine ⟨hW2 i q' hwi, ?_⟩
          rw [Bool.not_eq_true] at hd
          rw [hd]
          rfl
      · intro q'
        rw [FrameGraph.initRefCounts_passD, FrameGraph.resolveAliases_passD]
        exact (hW1 q').filter _
      · intro q'
        rw [FrameGraph.initRefCounts_passD, FrameGraph.resolveAliases_passD]
        dsimp only
        have hfil : ((fg0.passNodes.getD q' default).writes.filter
            (fun w => !fg0.isDisconnected w)).filter
              (fun w => decide (w ∉ ([] : List Nat))) =
            (fg0.passNodes.getD q' default).writes.filter
              (fun w => !fg0.isDisconnected w) :=
          List.filter_eq_self.mpr (fun a _ => by simp)
        rw [hfil]
        omega
    have hcull : (fg0.compile).passNodes =
        ((fg0.resolveAliases.initRefCounts).cull).passNodes :=
      FrameGraph.computeLifetimes_passNodes _
    rw [hcull]
    exact FrameGraph.cullLoop_rc _ _ _ [] hInv q hse2
  · intro p r fg' r' hp hw himp
    unfold FrameGraph.writeImpl at hw
    split at hw
    case isFalse => cases hw
    case isTrue hv =>
    cases hw
    dsimp only
    rw [getD_modifyNth_self_eq _ _ _ hp]
    dsimp only
    rw [himp]
    exact Bool.or_true _

/-- Witness for C5 at a concrete input: the side-effecting pass 1 of
`executeExample` survives compile, and a write to the imported resource of
`importWriteExample` marks pass 0 side-effecting. -/
def importWriteExample : FrameGraph :=
  { passNodes :=
      [{ name := "W", reads := [], writes := [], hasSideEffect := false,
         refCount := 0, exec := 0 }],
    resourceNodes :=
      [{ resource := 0, version := 0, readerCount := 0, writer := none }],
    entries :=
      [{ name := "ext", descriptor := 0, imported := true, version := 0,
         firstUse := none, lastUse := none }],
    aliases := [], presentRefs := [], events := [] }

/-- Witness for C5: instantiates the survival statement on
`executeExample` (whose pass 1 called `sideEffect`). -/
theorem claim_C5_witness :
    (∀ q, (executeExample.passNodes.getD q default).hasSideEffect = true →
      1 ≤ ((executeExample.compile).passNodes.getD q default).refCount) ∧
    (∀ p r fg' r', p < executeExample.passNodes.length →
      executeExample.writeImpl p r = some (fg', r') →
      (executeExample.entries.getD
        (executeExample.resourceNodes.getD r.index default).resource
        default).imported = true →
      (fg'.passNodes.getD p default).hasSideEffect = true) :=
  claim_C5_side_effecting_passes_survive executeExample
    (by
      intro q
      match q with
      | 0 => decide
      | 1 => decide
      | (n + 2) =>
        have h : executeExample.passNodes[n + 2]? = none := by
          refine List.getElem?_eq_none ?_
          have hl : executeExample.passNodes.length = 2 := rfl
          omega
        rw [List.getD_eq_getElem?_getD, h]
        exact List.nodup_nil)
    (by
      intro i q hwi
      match i with
      | 0 => cases hwi
      | 1 =>
        have hq : q = 0 := by
          have : some 0 = some q := hwi
          exact (Option.some_inj.mp this).symm
        subst hq
        decide
      | (n + 2) =>
        have h : executeExample.resourceNodes[n + 2]? = none := by
          refine List.getElem?_eq_none ?_
          have hl : executeExample.resourceNodes.length = 2 := rfl
          omega
        rw [List.getD_eq_getElem?_getD, h] at hwi
        cases hwi)


/-! ### C7 — compile idempotence: generic list lemmas -/

theorem list_ext_getD {α : Type} [Inhabited α] (l₁ l₂ : List α)
    (hlen : l₁.length = l₂.length)
    (h : ∀ i, l₁.getD i default = l₂.getD i default) : l₁ = l₂ := by
  refine List.ext_getElem? ?_
  intro i
  by_cases hi : i < l₁.length
  · have hi2 : i < l₂.length := by omega
    rw [List.getElem?_eq_getElem hi, List.getElem?_eq_getElem hi2]
    have hd := h i
    rw [List.getD_eq_getElem?_getD, List.getD_eq_getElem?_getD,
      List.getElem?_eq_getElem hi, List.getElem?_eq_getElem hi2] at hd
    simp only [Option.getD_some] at hd
    exact congrArg some hd
  · rw [List.getElem?_eq_none (by omega), List.getElem?_eq_none (by omega)]

theorem getD_map_lt {α : Type} [Inhabited α] (f : α → α) (l : List α) (i : Nat)
    (hi : i < l.length) : (l.map f).getD i default = f (l.getD i default) := by
  rw [List.getD_eq_getElem?_getD, List.getD_eq_getElem?_getD,
    List.getElem?_map, List.getElem?_eq_getElem hi]
  rfl

theorem getD_mapIdxGo_lt {α : Type} [Inhabited α] (f : Nat → α → α) (k i : Nat)
    (l : List α) (hi : i < l.length) :
    (mapIdxGo f k l).getD i default = f (k + i) (l.getD i default) := by
  rw [List.getD_eq_getElem?_getD, List.getD_eq_getElem?_getD,
    getElem?_mapIdxGo, List.getElem?_eq_getElem hi]
  rfl

theorem getD_map_default_het {α β : Type} [Inhabited α] [Inhabited β]
    (f : α → β) (hf : f default = default) (l : List α) (i : Nat) :
    ((l.map f).getD i default) = f (l.getD i default) := by
  rw [List.getD_eq_getElem?_getD, List.getD_eq_getElem?_getD,
    List.getElem?_map]
  cases l[i]? with
  | none => simp [hf]
  | some a => rfl

theorem getD_oor {α : Type} [Inhabited α] (l : List α) (i : Nat)
    (hi : l.length ≤ i) : l.getD i default = default := by
  rw [List.getD_eq_getElem?_getD, List.getElem?_eq_none hi]
  rfl

theorem mapIdxGo_comp {α : Type} (f g : Nat → α → α) (k : Nat) (l : List α) :
    mapIdxGo f k (mapIdxGo g k l) = mapIdxGo (fun i x => f i (g i x)) k l := by
  induction l generalizing k with
  | nil => rfl
  | cons a as ih => simp [mapIdxGo, ih]

theorem mapIdxGo_congr {α : Type} (f g : Nat → α → α)
    (h : ∀ i x, f i x = g i x) (k : Nat) (l : List α) :
    mapIdxGo f k l = mapIdxGo g k l := by
  induction l generalizing k with
  | nil => rfl
  | cons a as ih => simp [mapIdxGo, h, ih]

theorem mapIdxGo_idem {α : Type} (f : Nat → α → α)
    (h : ∀ i x, f i (f i x) = f i x) (k : Nat) (l : List α) :
    mapIdxGo f k (mapIdxGo f k l) = mapIdxGo f k l := by
  rw [mapIdxGo_comp]
  exact mapIdxGo_congr _ f h k l

theorem map_eq_self_of_pointwise {α : Type} (f : α → α) (l : List α)
    (h : ∀ a ∈ l, f a = a) : l.map f = l := by
  induction l with
  | nil => rfl
  | cons a as ih =>
    rw [List.map_cons, h a (List.mem_cons_self a as),
      ih (fun b hb => h b (List.mem_cons_of_mem a hb))]

theorem mapIdxGo_eq_self_of_getD {α : Type} [Inhabited α] (f : Nat → α → α)
    (hf : ∀ k, f k default = default) (l : List α)
    (h : ∀ i, f i (l.getD i default) = l.getD i default) :
    mapIdxGo f 0 l = l := by
  refine list_ext_getD _ _ (length_mapIdxGo f 0 l) ?_
  intro i
  rw [getD_mapIdxGo_default f hf 0 i, Nat.zero_add]
  exact h i

/-! ### C7 — structure bookkeeping helpers -/

theorem frameGraph_ext (x y : FrameGraph)
    (h1 : x.passNodes = y.passNodes) (h2 : x.resourceNodes = y.resourceNodes)
    (h3 : x.entries = y.entries) (h4 : x.aliases = y.aliases)
    (h5 : x.presentRefs = y.presentRefs) (h6 : x.events = y.events) :
    x = y := by
  cases x
  cases y
  dsimp only at h1 h2 h3 h4 h5 h6
  rw [h1, h2, h3, h4, h5, h6]

theorem passNode_update_rc_congr (x y : PassNode)
    (h : ({ x with refCount := 0 } : PassNode) = { y with refCount := 0 })
    (v : Nat) :
    ({ x with refCount := v } : PassNode) = { y with refCount := v } := by
  have h2 := congrArg (fun z : PassNode => { z with refCount := v }) h
  dsimp only at h2
  exact h2

theorem resourceNode_update_reader_congr (x y : ResourceNode)
    (h : ({ x with readerCount := 0 } : ResourceNode) =
      { y with readerCount := 0 }) (v : Nat) :
    ({ x with readerCount := v } : ResourceNode) =
      { y with readerCount := v } := by
  have h2 := congrArg (fun z : ResourceNode => { z with readerCount := v }) h
  dsimp only at h2
  exact h2

theorem resourceNode_writer_eta (n : ResourceNode) (h : n.writer = none) :
    ({ n with writer := none } : ResourceNode) = n := by
  cases n with
  | mk res ver rc w =>
    dsimp only at h
    rw [h]

namespace FrameGraph

/-- Closed form of one cull step: either the popped node has no writer, or
its writer pass's refcount drops, with the read-decrement branch taken
exactly when the refcount reaches zero on a side-effect-free pass. -/
theorem cullStep_cases (s : FrameGraph) (n : Nat) :
    ((s.resourceNodes.getD n default).writer = none ∧
      cullStep s n = (s, [])) ∨
    ∃ p, (s.resourceNodes.getD n default).writer = some p ∧
      (((((((s.passNodes.getD p default).refCount - 1) == 0) &&
          !(s.passNodes.getD p default).hasSideEffect) = true) ∧
        cullStep s n =
          ({ s with
              passNodes := modifyNth (fun q => { q with refCount :=
                (s.passNodes.getD p default).refCount - 1 }) p s.passNodes,
              resourceNodes := (decReads (s.passNodes.getD p default).reads
                s.resourceNodes []).1 },
            (decReads (s.passNodes.getD p default).reads
              s.resourceNodes []).2)) ∨
       ((¬ (((((s.passNodes.getD p default).refCount - 1) == 0) &&
          !(s.passNodes.getD p default).hasSideEffect) = true)) ∧
        cullStep s n =
          ({ s with
              passNodes := modifyNth (fun q => { q with refCount :=
                (s.passNodes.getD p default).refCount - 1 }) p s.passNodes },
            []))) := by
  cases hw : (s.resourceNodes.getD n default).writer with
  | none =>
    left
    refine ⟨rfl, ?_⟩
    unfold cullStep
    rw [hw]
  | some p =>
    right
    refine ⟨p, rfl, ?_⟩
    by_cases hb : (((((s.passNodes.getD p default).refCount - 1) == 0) &&
        !(s.passNodes.getD p default).hasSideEffect) = true)
    · left
      refine ⟨hb, ?_⟩
      unfold cullStep
      rw [hw]
      simp only
      rw [if_pos hb]
    · right
      refine ⟨hb, ?_⟩
      unfold cullStep
      rw [hw]
      simp only
      rw [if_neg hb]

theorem decReads_length (rs : List Nat) (ns : List ResourceNode)
    (ps : List Nat) : (decReads rs ns ps).1.length = ns.length := by
  induction rs generalizing ns ps with
  | nil => rfl
  | cons r rs ih =>
    simp only [decReads]
    rw [ih, length_modifyNth]

theorem decReads_node_pres {β : Type} (g : ResourceNode → β)
    (hg : ∀ (x : ResourceNode) (v : Nat),
      g { x with readerCount := v } = g x)
    (rs : List Nat) (ns : List ResourceNode) (ps : List Nat) (i : Nat) :
    g ((decReads rs ns ps).1.getD i default) = g (ns.getD i default) := by
  induction rs generalizing ns ps with
  | nil => rfl
  | cons r rs ih =>
    simp only [decReads]
    rw [ih]
    exact getD_modifyNth_pres
      (fun m : ResourceNode => { m with readerCount := m.readerCount - 1 })
      g (fun x => hg x (x.readerCount - 1)) r i ns

theorem cullStep_frame (s : FrameGraph) (n : Nat) :
    (cullStep s n).1.entries = s.entries ∧
    (cullStep s n).1.aliases = s.aliases ∧
    (cullStep s n).1.presentRefs = s.presentRefs ∧
    (cullStep s n).1.events = s.events ∧
    (cullStep s n).1.passNodes.length = s.passNodes.length ∧
    (cullStep s n).1.resourceNodes.length = s.resourceNodes.length := by
  rcases cullStep_cases s n with ⟨hw, h⟩ | ⟨p, hw, ⟨hb, h⟩ | ⟨hb, h⟩⟩
  · rw [h]
    exact ⟨rfl, rfl, rfl, rfl, rfl, rfl⟩
  · rw [h]
    exact ⟨rfl, rfl, rfl, rfl, by dsimp only; rw [length_modifyNth],
      by dsimp only; rw [decReads_length]⟩
  · rw [h]
    exact ⟨rfl, rfl, rfl, rfl, by dsimp only; rw [length_modifyNth], rfl⟩

theorem cullStep_pass_pres {β : Type} (g : PassNode → β)
    (hg : ∀ (x : PassNode) (v : Nat), g { x with refCount := v } = g x)
    (s : FrameGraph) (n q : Nat) :
    g ((cullStep s n).1.passNodes.getD q default) =
      g (s.passNodes.getD q default) := by
  rcases cullStep_cases s n with ⟨hw, h⟩ | ⟨p, hw, ⟨hb, h⟩ | ⟨hb, h⟩⟩
  · rw [h]
  · rw [h]
    dsimp only
    exact getD_modifyNth_pres (fun x : PassNode => { x with refCount :=
        (s.passNodes.getD p default).refCount - 1 }) g
      (fun x => hg x ((s.passNodes.getD p default).refCount - 1))
      p q s.passNodes
  · rw [h]
    dsimp only
    exact getD_modifyNth_pres (fun x : PassNode => { x with refCount :=
        (s.passNodes.getD p default).refCount - 1 }) g
      (fun x => hg x ((s.passNodes.getD p default).refCount - 1))
      p q s.passNodes

theorem cullStep_node_pres {β : Type} (g : ResourceNode → β)
    (hg : ∀ (x : ResourceNode) (v : Nat),
      g { x with readerCount := v } = g x)
    (s : FrameGraph) (n i : Nat) :
    g ((cullStep s n).1.resourceNodes.getD i default) =
      g (s.resourceNodes.getD i default) := by
  rcases cullStep_cases s n with ⟨hw, h⟩ | ⟨p, hw, ⟨hb, h⟩ | ⟨hb, h⟩⟩
  · rw [h]
  · rw [h]
    dsimp only
    exact decReads_node_pres g hg (s.passNodes.getD p default).reads
      s.resourceNodes [] i
  · rw [h]

theorem cullLoop_pass_pres {β : Type} (g : PassNode → β)
    (hg : ∀ (x : PassNode) (v : Nat), g { x with refCount := v } = g x)
    (fuel : Nat) : ∀ (s : FrameGraph) (stack : List Nat) (q : Nat),
    g ((cullLoop fuel s stack).passNodes.getD q default) =
      g (s.passNodes.getD q default) := by
  induction fuel with
  | zero => intro s stack q; rfl
  | succ fuel ih =>
    intro s stack q
    cases stack with
    | nil => rfl
    | cons n rest =>
      have hred : cullLoop (fuel + 1) s (n :: rest) =
          cullLoop fuel (cullStep s n).1 ((cullStep s n).2 ++ rest) := rfl
      rw [hred, ih (cullStep s n).1 ((cullStep s n).2 ++ rest) q]
      exact cullStep_pass_pres g hg s n q

theorem cullLoop_node_pres {β : Type} (g : ResourceNode → β)
    (hg : ∀ (x : ResourceNode) (v : Nat),
      g { x with readerCount := v } = g x)
    (fuel : Nat) : ∀ (s : FrameGraph) (stack : List Nat) (i : Nat),
    g ((cullLoop fuel s stack).resourceNodes.getD i default) =
      g (s.resourceNodes.getD i default) := by
  induction fuel with
  | zero => intro s stack i; rfl
  | succ fuel ih =>
    intro s stack i
    cases stack with
    | nil => rfl
    | cons n rest =>
      have hred : cullLoop (fuel + 1) s (n :: rest) =
          cullLoop fuel (cullStep s n).1 ((cullStep s n).2 ++ rest) := rfl
      rw [hred, ih (cullStep s n).1 ((cullStep s n).2 ++ rest) i]
      exact cullStep_node_pres g hg s n i

theorem cullLoop_frame (fuel : Nat) : ∀ (s : FrameGraph) (stack : List Nat),
    (cullLoop fuel s stack).entries = s.entries ∧
    (cullLoop fuel s stack).aliases = s.aliases ∧
    (cullLoop fuel s stack).presentRefs = s.presentRefs ∧
    (cullLoop fuel s stack).events = s.events ∧
    (cullLoop fuel s stack).passNodes.length = s.passNodes.length ∧
    (cullLoop fuel s stack).resourceNodes.length =
      s.resourceNodes.length := by
  induction fuel with
  | zero => intro s stack; exact ⟨rfl, rfl, rfl, rfl, rfl, rfl⟩
  | succ fuel ih =>
    intro s stack
    cases stack with
    | nil => exact ⟨rfl, rfl, rfl, rfl, rfl, rfl⟩
    | cons n rest =>
      have hred : cullLoop (fuel + 1) s (n :: rest) =
          cullLoop fuel (cullStep s n).1 ((cullStep s n).2 ++ rest) := rfl
      have h1 := ih (cullStep s n).1 ((cullStep s n).2 ++ rest)
      have h2 := cullStep_frame s n
      rw [hred]
      exact ⟨h1.1.trans h2.1, h1.2.1.trans h2.2.1, h1.2.2.1.trans h2.2.2.1,
        h1.2.2.2.1.trans h2.2.2.2.1, h1.2.2.2.2.1.trans h2.2.2.2.2.1,
        h1.2.2.2.2.2.trans h2.2.2.2.2.2⟩

theorem cull_frame (y : FrameGraph) :
    (cull y).entries = y.entries ∧ (cull y).aliases = y.aliases ∧
    (cull y).presentRefs = y.presentRefs ∧ (cull y).events = y.events ∧
    (cull y).passNodes.length = y.passNodes.length ∧
    (cull y).resourceNodes.length = y.resourceNodes.length := by
  unfold cull
  exact cullLoop_frame (2 * y.resourceNodes.length + 1) y
    ((List.range y.resourceNodes.length).filter
      (fun i => (y.resourceNodes.getD i default).readerCount == 0))

theorem cull_pass_pres {β : Type} (g : PassNode → β)
    (hg : ∀ (x : PassNode) (v : Nat), g { x with refCount := v } = g x)
    (y : FrameGraph) (q : Nat) :
    g ((cull y).passNodes.getD q default) =
      g (y.passNodes.getD q default) := by
  unfold cull
  exact cullLoop_pass_pres g hg (2 * y.resourceNodes.length + 1) y
    ((List.range y.resourceNodes.length).filter
      (fun i => (y.resourceNodes.getD i default).readerCount == 0)) q

theorem cull_node_pres {β : Type} (g : ResourceNode → β)
    (hg : ∀ (x : ResourceNode) (v : Nat),
      g { x with readerCount := v } = g x)
    (y : FrameGraph) (i : Nat) :
    g ((cull y).resourceNodes.getD i default) =
      g (y.resourceNodes.getD i default) := by
  unfold cull
  exact cullLoop_node_pres g hg (2 * y.resourceNodes.length + 1) y
    ((List.range y.resourceNodes.length).filter
      (fun i => (y.resourceNodes.getD i default).readerCount == 0)) i

end FrameGraph


namespace FrameGraph

/-- A frame graph's aliases survive `compile` unchanged. -/
theorem compile_aliases (fg : FrameGraph) :
    fg.compile.aliases = fg.aliases := by
  show fg.resolveAliases.initRefCounts.cull.aliases = fg.aliases
  exact (cull_frame fg.resolveAliases.initRefCounts).2.1

theorem compile_presentRefs (fg : FrameGraph) :
    fg.compile.presentRefs = fg.presentRefs := by
  show fg.resolveAliases.initRefCounts.cull.presentRefs = fg.presentRefs
  exact (cull_frame fg.resolveAliases.initRefCounts).2.2.1

theorem compile_events (fg : FrameGraph) :
    fg.compile.events = fg.events := by
  show fg.resolveAliases.initRefCounts.cull.events = fg.events
  exact (cull_frame fg.resolveAliases.initRefCounts).2.2.2.1

theorem redirectStep_length (ns : List ResourceNode) (a : Alias) :
    (redirectStep ns a).length = ns.length := by
  simp [redirectStep]

theorem redirect_fold_length (as : List Alias) (ns : List ResourceNode) :
    (as.foldl redirectStep ns).length = ns.length := by
  induction as generalizing ns with
  | nil => rfl
  | cons a as ih =>
    rw [List.foldl_cons, ih (redirectStep ns a), redirectStep_length]

theorem resolveAliases_passNodes_length (fg : FrameGraph) :
    fg.resolveAliases.passNodes.length = fg.passNodes.length := by
  rw [resolveAliases_passNodes]
  exact List.length_map fg.passNodes _

theorem resolveAliases_resourceNodes_length (fg : FrameGraph) :
    fg.resolveAliases.resourceNodes.length = fg.resourceNodes.length := by
  unfold resolveAliases
  dsimp only
  rw [length_mapIdxGo, redirect_fold_length]

theorem initRefCounts_passNodes_length (fg : FrameGraph) :
    fg.initRefCounts.passNodes.length = fg.passNodes.length := by
  rw [initRefCounts_passNodes]
  exact List.length_map fg.passNodes _

theorem initRefCounts_resourceNodes_length (fg : FrameGraph) :
    fg.initRefCounts.resourceNodes.length = fg.resourceNodes.length := by
  unfold initRefCounts
  dsimp only
  rw [length_mapIdxGo]

theorem compile_passNodes_length (fg : FrameGraph) :
    fg.compile.passNodes.length = fg.resolveAliases.passNodes.length := by
  show fg.resolveAliases.initRefCounts.cull.passNodes.length =
    fg.resolveAliases.passNodes.length
  rw [(cull_frame fg.resolveAliases.initRefCounts).2.2.2.2.1,
    initRefCounts_passNodes_length]

theorem compile_resourceNodes_length (fg : FrameGraph) :
    fg.compile.resourceNodes.length =
      fg.resolveAliases.resourceNodes.length := by
  show fg.resolveAliases.initRefCounts.cull.resourceNodes.length =
    fg.resolveAliases.resourceNodes.length
  rw [(cull_frame fg.resolveAliases.initRefCounts).2.2.2.2.2,
    initRefCounts_resourceNodes_length]

/-- With its refcount blanked, a pass node is unchanged by the refcount and
cull stages of compile: only `initRefCounts` and `cull` ever touch it, and
both only write `refCount`. -/
theorem compile_pass_erased (fg : FrameGraph) (q : Nat) :
    ({ (fg.compile.passNodes.getD q default) with refCount := 0 } :
        PassNode) =
      { (fg.resolveAliases.passNodes.getD q default) with
        refCount := 0 } := by
  have h1 := cull_pass_pres
    (fun x : PassNode => ({ x with refCount := 0 } : PassNode))
    (fun x v => rfl) fg.resolveAliases.initRefCounts q
  have h2 : ({ (fg.resolveAliases.initRefCounts.passNodes.getD q default)
      with refCount := 0 } : PassNode) =
      { (fg.resolveAliases.passNodes.getD q default) with
        refCount := 0 } := by
    rw [initRefCounts_passD]
  exact h1.trans h2

/-- With its reader count blanked, a resource node is unchanged by the
refcount and cull stages of compile. -/
theorem compile_node_erased (fg : FrameGraph) (i : Nat) :
    ({ (fg.compile.resourceNodes.getD i default) with readerCount := 0 } :
        ResourceNode) =
      { (fg.resolveAliases.resourceNodes.getD i default) with
        readerCount := 0 } := by
  have h1 := cull_node_pres
    (fun x : ResourceNode => ({ x with readerCount := 0 } : ResourceNode))
    (fun x v => rfl) fg.resolveAliases.initRefCounts i
  have h2 := getD_mapIdxGo_pres
    (fun k n => ({ n with readerCount := fg.resolveAliases.totalReads k } :
      ResourceNode))
    (fun x : ResourceNode => ({ x with readerCount := 0 } : ResourceNode))
    (fun k x => rfl) 0 fg.resolveAliases.resourceNodes i
  exact h1.trans h2

theorem compile_pass_writes (fg : FrameGraph) (q : Nat) :
    (fg.compile.passNodes.getD q default).writes =
      (fg.passNodes.getD q default).writes.filter
        (fun w => !fg.isDisconnected w) := by
  have h := congrArg PassNode.writes (compile_pass_erased fg q)
  dsimp only at h
  rw [h, resolveAliases_passD]

theorem compile_pass_reads (fg : FrameGraph) (q : Nat) :
    (fg.compile.passNodes.getD q default).reads =
      (fg.resolveAliases.passNodes.getD q default).reads := by
  have h := congrArg PassNode.reads (compile_pass_erased fg q)
  dsimp only at h
  exact h

theorem resolveAliases_resource (fg : FrameGraph) (i : Nat) :
    (fg.resolveAliases.resourceNodes.getD i default).resource =
      ((fg.aliases.foldl redirectStep fg.resourceNodes).getD
        i default).resource := by
  unfold resolveAliases
  dsimp only
  exact getD_mapIdxGo_pres
    (fun k n => if fg.isDisconnected k then { n with writer := none } else n)
    (fun x : ResourceNode => x.resource)
    (fun k x => by
      dsimp only
      by_cases hd : fg.isDisconnected k = true
      · rw [if_pos hd]
      · rw [if_neg hd]) 0
    (fg.aliases.foldl redirectStep fg.resourceNodes) i

theorem compile_node_resource (fg : FrameGraph) (i : Nat) :
    (fg.compile.resourceNodes.getD i default).resource =
      ((fg.aliases.foldl redirectStep fg.resourceNodes).getD
        i default).resource := by
  have h := congrArg ResourceNode.resource (compile_node_erased fg i)
  dsimp only at h
  rw [h, resolveAliases_resource]

theorem compile_node_writer_none (fg : FrameGraph) (i : Nat)
    (hd : fg.isDisconnected i = true) :
    (fg.compile.resourceNodes.getD i default).writer = none := by
  have h := congrArg ResourceNode.writer (compile_node_erased fg i)
  dsimp only at h
  rw [h, resolveAliases_writer, if_pos hd]

/-- One redirection step preserves pointwise equality of the entry indices
of two in-range nodes. -/
theorem redirectStep_resource_eq (ns : List ResourceNode) (a : Alias)
    (i j : Nat) (hi : i < ns.length) (hj : j < ns.length)
    (h : (ns.getD i default).resource = (ns.getD j default).resource) :
    ((redirectStep ns a).getD i default).resource =
      ((redirectStep ns a).getD j default).resource := by
  unfold redirectStep
  dsimp only
  rw [getD_map_lt _ _ _ hi, getD_map_lt _ _ _ hj]
  by_cases hb : ((ns.getD i default).resource ==
      (ns.getD a.toNode default).resource) = true
  · rw [if_pos hb, if_pos (by rw [← h]; exact hb)]
  · rw [if_neg hb, if_neg (by rw [← h]; exact hb)]
    exact h

/-- After its own redirection step, an in-range alias has its `to` node and
its `from` node on the same entry. -/
theorem redirectStep_equalizes (ns : List ResourceNode) (a : Alias)
    (hf : a.fromNode < ns.length) (ht : a.toNode < ns.length) :
    ((redirectStep ns a).getD a.toNode default).resource =
      ((redirectStep ns a).getD a.fromNode default).resource := by
  unfold redirectStep
  dsimp only
  rw [getD_map_lt _ _ _ ht, getD_map_lt _ _ _ hf]
  rw [if_pos (beq_self_eq_true (ns.getD a.toNode default).resource)]
  by_cases hb : ((ns.getD a.fromNode default).resource ==
      (ns.getD a.toNode default).resource) = true
  · rw [if_pos hb]
  · rw [if_neg hb]

theorem redirect_fold_pres_eq (as : List Alias) :
    ∀ (ns : List ResourceNode) (i j : Nat), i < ns.length → j < ns.length →
    (ns.getD i default).resource = (ns.getD j default).resource →
    ((as.foldl redirectStep ns).getD i default).resource =
      ((as.foldl redirectStep ns).getD j default).resource := by
  induction as with
  | nil => intro ns i j hi hj h; exact h
  | cons a as ih =>
    intro ns i j hi hj h
    rw [List.foldl_cons]
    refine ih (redirectStep ns a) i j ?_ ?_ ?_
    · rw [redirectStep_length]; exact hi
    · rw [redirectStep_length]; exact hj
    · exact redirectStep_resource_eq ns a i j hi hj h

/-- After the whole redirection fold, every in-range recorded alias has its
`to` node and its `from` node on the same entry. -/
theorem redirect_fold_equalizes (as : List Alias) :
    ∀ (ns : List ResourceNode),
    (∀ a ∈ as, a.fromNode < ns.length ∧ a.toNode < ns.length) →
    ∀ a ∈ as,
    ((as.foldl redirectStep ns).getD a.toNode default).resource =
      ((as.foldl redirectStep ns).getD a.fromNode default).resource := by
  induction as with
  | nil => intro ns _ a ha; cases ha
  | cons b bs ih =>
    intro ns hin a ha
    rw [List.foldl_cons]
    rcases List.mem_cons.mp ha with heq | h
    · rw [heq]
      have hb := hin b (List.mem_cons_self b bs)
      refine redirect_fold_pres_eq bs (redirectStep ns b) b.toNode
        b.fromNode ?_ ?_ ?_
      · rw [redirectStep_length]; exact hb.2
      · rw [redirectStep_length]; exact hb.1
      · exact redirectStep_equalizes ns b hb.1 hb.2
    · refine ih (redirectStep ns b) ?_ a h
      intro c hc
      refine ⟨?_, ?_⟩
      · rw [redirectStep_length]
        exact (hin c (List.mem_cons_of_mem b hc)).1
      · rw [redirectStep_length]
        exact (hin c (List.mem_cons_of_mem b hc)).2

/-- Redirecting is the identity once every recorded alias already has its
`to` node and `from` node on the same entry. -/
theorem redirect_fold_id (as : List Alias) (ns : List ResourceNode)
    (h : ∀ a ∈ as, (ns.getD a.toNode default).resource =
      (ns.getD a.fromNode default).resource) :
    as.foldl redirectStep ns = ns := by
  induction as with
  | nil => rfl
  | cons a as ih =>
    rw [List.foldl_cons]
    have hstep : redirectStep ns a = ns := by
      unfold redirectStep
      dsimp only
      refine map_eq_self_of_pointwise _ ns ?_
      intro n hn
      by_cases hb : (n.resource ==
          (ns.getD a.toNode default).resource) = true
      · rw [if_pos hb]
        have he := h a (List.mem_cons_self a as)
        have hr : n.resource = (ns.getD a.toNode default).resource :=
          beq_iff_eq.mp hb
        rw [← he, ← hr]
      · rw [if_neg hb]
    rw [hstep]
    exact ih (fun b hb => h b (List.mem_cons_of_mem a hb))

end FrameGraph


namespace FrameGraph

/-- Running compile's alias-resolution step on an already-compiled graph
changes nothing: redirection is the identity (each alias is already
equalized), the writers of disconnected nodes are already cleared, and the
disconnected writes are already filtered out of every pass. -/
theorem resolveAliases_compile_id (fg : FrameGraph)
    (ha : ∀ a ∈ fg.aliases, a.fromNode < fg.resourceNodes.length ∧
      a.toNode < fg.resourceNodes.length) :
    fg.compile.resolveAliases = fg.compile := by
  have hdisc : ∀ w, fg.compile.isDisconnected w = fg.isDisconnected w := by
    intro w
    unfold isDisconnected
    rw [compile_aliases]
  have hredid : fg.compile.aliases.foldl redirectStep
      fg.compile.resourceNodes = fg.compile.resourceNodes := by
    refine redirect_fold_id _ _ ?_
    intro a hamem
    rw [compile_node_resource, compile_node_resource]
    refine redirect_fold_equalizes fg.aliases fg.resourceNodes ha a ?_
    rw [compile_aliases] at hamem
    exact hamem
  refine frameGraph_ext _ _ ?_ ?_ rfl rfl rfl rfl
  · show fg.compile.passNodes.map
      (fun p => { p with
        writes := p.writes.filter (fun w => !fg.compile.isDisconnected w) }) =
      fg.compile.passNodes
    refine map_eq_self_of_pointwise _ _ ?_
    intro p hp
    obtain ⟨q, hq, hpq⟩ := List.getElem_of_mem hp
    have hgd : fg.compile.passNodes.getD q default = p := by
      rw [List.getD_eq_getElem?_getD, List.getElem?_eq_getElem hq, hpq]
      rfl
    have hwf : p.writes.filter (fun w => !fg.compile.isDisconnected w) =
        p.writes := by
      have hcong : p.writes.filter (fun w => !fg.compile.isDisconnected w) =
          p.writes.filter (fun w => !fg.isDisconnected w) := by
        refine List.filter_congr ?_
        intro w _
        rw [hdisc w]
      rw [hcong, ← hgd, compile_pass_writes]
      simp [List.filter_filter]
    rw [hwf]
  · show mapIdxGo
      (fun i n => if fg.compile.isDisconnected i then
        { n with writer := none } else n) 0
      (fg.compile.aliases.foldl redirectStep fg.compile.resourceNodes) =
      fg.compile.resourceNodes
    rw [hredid]
    refine mapIdxGo_eq_self_of_getD _ ?_ _ ?_
    · intro k
      by_cases hd : fg.compile.isDisconnected k = true
      · rw [if_pos hd]
        rfl
      · rw [if_neg hd]
    · intro i
      by_cases hd : fg.compile.isDisconnected i = true
      · rw [if_pos hd]
        refine resourceNode_writer_eta _ ?_
        refine compile_node_writer_none fg i ?_
        rw [← hdisc i]
        exact hd
      · rw [if_neg hd]

theorem foldl_reads_count (i : Nat) (l : List PassNode) : ∀ acc : Nat,
    l.foldl (fun acc p => acc + p.reads.count i) acc =
      acc + (l.map (fun p => p.reads.count i)).sum := by
  induction l with
  | nil => intro acc; simp
  | cons p ps ih =>
    intro acc
    rw [List.foldl_cons, ih (acc + p.reads.count i), List.map_cons,
      List.sum_cons, Nat.add_assoc]

/-- Declared-read counts are unchanged by the refcount and cull stages:
they only depend on the read lists and present references, which those
stages never touch. -/
theorem totalReads_compile (fg : FrameGraph) (i : Nat) :
    fg.compile.totalReads i = fg.resolveAliases.totalReads i := by
  have hpr : fg.compile.presentRefs = fg.resolveAliases.presentRefs := by
    rw [compile_presentRefs]
    rfl
  have hmap : fg.compile.passNodes.map (fun p => p.reads.count i) =
      fg.resolveAliases.passNodes.map (fun p => p.reads.count i) := by
    refine list_ext_getD _ _ ?_ ?_
    · rw [List.length_map, List.length_map, compile_passNodes_length]
    · intro q
      rw [getD_map_default_het (fun p : PassNode => p.reads.count i) rfl,
        getD_map_default_het (fun p : PassNode => p.reads.count i) rfl,
        compile_pass_reads]
  unfold totalReads
  rw [foldl_reads_count, foldl_reads_count, hmap, hpr]

/-- Running compile's refcount-initialization step on an already-compiled
graph reproduces the first run's refcount state (only the entry lifetimes
computed by the first run are carried along). -/
theorem initRefCounts_resourceNodes (fg : FrameGraph) :
    fg.initRefCounts.resourceNodes = mapIdxGo
      (fun i n => { n with readerCount := fg.totalReads i }) 0
      fg.resourceNodes := rfl

theorem initRefCounts_compile (fg : FrameGraph) :
    fg.compile.initRefCounts =
      { fg.resolveAliases.initRefCounts with
        entries := fg.compile.entries } := by
  have h1 : fg.compile.initRefCounts.passNodes =
      fg.resolveAliases.initRefCounts.passNodes := by
    rw [initRefCounts_passNodes, initRefCounts_passNodes]
    refine list_ext_getD _ _ ?_ ?_
    · rw [List.length_map, List.length_map, compile_passNodes_length]
    · intro q
      rw [getD_map_default (fun q : PassNode =>
          { q with
            refCount := q.writes.length +
              (if q.hasSideEffect then 1 else 0) }) rfl,
        getD_map_default (fun q : PassNode =>
          { q with
            refCount := q.writes.length +
              (if q.hasSideEffect then 1 else 0) }) rfl]
      have he := compile_pass_erased fg q
      have hw := congrArg PassNode.writes he
      have hs := congrArg PassNode.hasSideEffect he
      dsimp only at hw hs
      show ({ (fg.compile.passNodes.getD q default) with
          refCount := (fg.compile.passNodes.getD q default).writes.length +
            (if (fg.compile.passNodes.getD q default).hasSideEffect
              then 1 else 0) } : PassNode) =
        { (fg.resolveAliases.passNodes.getD q default) with
          refCount :=
            (fg.resolveAliases.passNodes.getD q default).writes.length +
            (if (fg.resolveAliases.passNodes.getD q default).hasSideEffect
              then 1 else 0) }
      rw [hw, hs]
      exact passNode_update_rc_congr _ _ he _
  have h2 : fg.compile.initRefCounts.resourceNodes =
      fg.resolveAliases.initRefCounts.resourceNodes := by
    rw [initRefCounts_resourceNodes, initRefCounts_resourceNodes]
    refine list_ext_getD _ _ ?_ ?_
    · rw [length_mapIdxGo, length_mapIdxGo, compile_resourceNodes_length]
    · intro i
      by_cases hi : i < fg.resolveAliases.resourceNodes.length
      · have hi1 : i < fg.compile.resourceNodes.length := by
          rw [compile_resourceNodes_length]
          exact hi
        rw [getD_mapIdxGo_lt _ 0 i _ hi1, getD_mapIdxGo_lt _ 0 i _ hi,
          Nat.zero_add]
        show ({ (fg.compile.resourceNodes.getD i default) with
            readerCount := fg.compile.totalReads i } : ResourceNode) =
          { (fg.resolveAliases.resourceNodes.getD i default) with
            readerCount := fg.resolveAliases.totalReads i }
        rw [totalReads_compile]
        exact resourceNode_update_reader_congr _ _
          (compile_node_erased fg i) _
      · have hi1 : ¬ i < fg.compile.resourceNodes.length := by
          rw [compile_resourceNodes_length]
          exact hi
        rw [getD_oor _ i (by rw [length_mapIdxGo]; omega),
          getD_oor _ i (by rw [length_mapIdxGo]; omega)]
  exact frameGraph_ext _ _ h1 h2 rfl (compile_aliases fg)
    (compile_presentRefs fg) (compile_events fg)

/-- Cull-step congruence: the cull stages never read or write the entry
list, so swapping it out commutes with one step. -/
theorem cullStep_entries_congr (y : FrameGraph) (E : List ResourceEntry)
    (n : Nat) :
    cullStep { y with entries := E } n =
      ({ (cullStep y n).1 with entries := E }, (cullStep y n).2) := by
  rcases cullStep_cases y n with ⟨hw, h⟩ | ⟨p, hw, ⟨hb, h⟩ | ⟨hb, h⟩⟩
  · have h1 : cullStep { y with entries := E } n =
        ({ y with entries := E }, []) := by
      unfold cullStep
      dsimp only
      rw [hw]
    rw [h1, h]
  · have h1 : cullStep { y with entries := E } n =
        ({ { y with entries := E } with
            passNodes := modifyNth (fun q => { q with refCount :=
              (y.passNodes.getD p default).refCount - 1 }) p y.passNodes,
            resourceNodes := (decReads (y.passNodes.getD p default).reads
              y.resourceNodes []).1 },
          (decReads (y.passNodes.getD p default).reads
            y.resourceNodes []).2) := by
      unfold cullStep
      dsimp only
      rw [hw]
      simp only
      rw [if_pos hb]
    rw [h1, h]
  · have h1 : cullStep { y with entries := E } n =
        ({ { y with entries := E } with
            passNodes := modifyNth (fun q => { q with refCount :=
              (y.passNodes.getD p default).refCount - 1 }) p y.passNodes },
          []) := by
      unfold cullStep
      dsimp only
      rw [hw]
      simp only
      rw [if_neg hb]
    rw [h1, h]

theorem cullLoop_entries_congr (fuel : Nat) :
    ∀ (y : FrameGraph) (E : List ResourceEntry) (stack : List Nat),
    cullLoop fuel { y with entries := E } stack =
      { cullLoop fuel y stack with entries := E } := by
  induction fuel with
  | zero => intro y E stack; rfl
  | succ fuel ih =>
    intro y E stack
    cases stack with
    | nil => rfl
    | cons n rest =>
      have hred1 : cullLoop (fuel + 1) { y with entries := E } (n :: rest) =
          cullLoop fuel (cullStep { y with entries := E } n).1
            ((cullStep { y with entries := E } n).2 ++ rest) := rfl
      have hred2 : cullLoop (fuel + 1) y (n :: rest) =
          cullLoop fuel (cullStep y n).1 ((cullStep y n).2 ++ rest) := rfl
      rw [hred1, hred2, cullStep_entries_congr]
      exact ih (cullStep y n).1 E ((cullStep y n).2 ++ rest)

theorem cull_entries_congr (y : FrameGraph) (E : List ResourceEntry) :
    cull { y with entries := E } = { cull y with entries := E } := by
  unfold cull
  dsimp only
  exact cullLoop_entries_congr (2 * y.resourceNodes.length + 1) y E
    ((List.range y.resourceNodes.length).filter
      (fun i => (y.resourceNodes.getD i default).readerCount == 0))

theorem computeLifetimes_entries_congr (u : FrameGraph)
    (E : List ResourceEntry) :
    computeLifetimes { u with entries := E } =
      { u with
        entries := mapIdxGo
          (fun e ent =>
            let users := u.survivors.filter (fun i => u.usesEntry i e)
            { ent with
              firstUse := users.head?,
              lastUse := users.getLast? })
          0 E } := rfl

theorem compile_entries_eq (fg : FrameGraph) :
    fg.compile.entries = mapIdxGo
      (fun e ent =>
        let users := fg.resolveAliases.initRefCounts.cull.survivors.filter
          (fun i => fg.resolveAliases.initRefCounts.cull.usesEntry i e)
        { ent with firstUse := users.head?, lastUse := users.getLast? })
      0 fg.resolveAliases.initRefCounts.cull.entries := rfl

/-- Compile is idempotent on any graph whose recorded aliases name
in-range resource nodes. -/
theorem compile_compile (fg : FrameGraph)
    (ha : ∀ a ∈ fg.aliases, a.fromNode < fg.resourceNodes.length ∧
      a.toNode < fg.resourceNodes.length) :
    fg.compile.compile = fg.compile := by
  show fg.compile.resolveAliases.initRefCounts.cull.computeLifetimes =
    fg.compile
  rw [resolveAliases_compile_id fg ha, initRefCounts_compile fg,
    cull_entries_congr, computeLifetimes_entries_congr, compile_entries_eq,
    mapIdxGo_idem
      (fun e ent =>
        let users := fg.resolveAliases.initRefCounts.cull.survivors.filter
          (fun i => fg.resolveAliases.initRefCounts.cull.usesEntry i e)
        { ent with firstUse := users.head?, lastUse := users.getLast? })
      (fun i x => rfl) 0 fg.resolveAliases.initRefCounts.cull.entries]
  rfl

end FrameGraph


/-- C7: calling `compile` a second time without an intervening reset is
idempotent (spec §4.4, §5; `FrameGraph.h:216-217`).  Provided every
recorded alias names in-range resource nodes, the second run yields the
same set of surviving passes, the same resource entries — hence the same
first-use/last-use lifetimes — and in fact the identical compiled state. -/
theorem claim_C7_compile_idempotent (fg : FrameGraph)
    (ha : ∀ a ∈ fg.aliases, a.fromNode < fg.resourceNodes.length ∧
      a.toNode < fg.resourceNodes.length) :
    fg.compile.compile.survivors = fg.compile.survivors ∧
    fg.compile.compile.entries = fg.compile.entries ∧
    fg.compile.compile = fg.compile := by
  have h := FrameGraph.compile_compile fg ha
  exact ⟨by rw [h], by rw [h], h⟩

/-- Concrete graph for the C7 witness: two passes, two single-version
resources, one recorded in-range alias, one presented node. -/
def idemExample : FrameGraph :=
  { passNodes := [
      { name := "A", reads := [], writes := [0], hasSideEffect := true,
        refCount := 0, exec := 0 },
      { name := "B", reads := [0], writes := [1], hasSideEffect := false,
        refCount := 0, exec := 1 } ],
    resourceNodes := [
      { resource := 0, version := 0, readerCount := 0, writer := some 0 },
      { resource := 1, version := 0, readerCount := 0, writer := some 1 } ],
    entries := [
      { name := "x", descriptor := 1, imported := false, version := 0,
        firstUse := none, lastUse := none },
      { name := "y", descriptor := 2, imported := false, version := 0,
        firstUse := none, lastUse := none } ],
    aliases := [ { fromNode := 0, toNode := 1, disconnects := [] } ],
    presentRefs := [1],
    events := [] }

/-- Witness for C7 at a concrete input: on `idemExample` (whose single
alias is in range) a second compile reproduces the first. -/
theorem claim_C7_witness :
    (∀ a ∈ idemExample.aliases,
      a.fromNode < idemExample.resourceNodes.length ∧
      a.toNode < idemExample.resourceNodes.length) ∧
    idemExample.compile.compile = idemExample.compile :=
  ⟨by decide, (claim_C7_compile_idempotent idemExample (by decide)).2.2⟩

end Filament
